import Mathlib

set_option maxHeartbeats 1000000

namespace CDataSync

/-! Shallow embedding of cdata-sync-mcp-server.
A model of JavaScript values, sufficient for the request/response bodies,
tool arguments and configuration records handled by the server. -/

inductive JSValue : Type where
  | jstr (s : String)
  | jnum (n : Int)
  | jbool (b : Bool)
  | jnull
  | jarr (xs : List JSValue)
  | jobj (fields : List (String × JSValue))

/-- JavaScript truthiness for the modelled values. -/
def truthy : JSValue → Bool
  | .jstr s => s ≠ ""
  | .jnum n => n ≠ 0
  | .jbool b => b
  | .jnull => false
  | .jarr _ => true
  | .jobj _ => true

/-- Property lookup on an object represented as an association list
(first binding wins, as JavaScript objects have unique keys). -/
def lookupField : List (String × JSValue) → String → Option JSValue
  | [], _ => none
  | (k, v) :: rest, key => if k = key then some v else lookupField rest key

/-- Property access on a value: objects look up the field, every other
value yields undefined (modelled as none). -/
def getField : JSValue → String → Option JSValue
  | .jobj fs, k => lookupField fs k
  | _, _ => none

/-- Property assignment on an object: replaces the first binding of the key,
or appends the binding when the key is absent. -/
def setField : List (String × JSValue) → String → JSValue → List (String × JSValue)
  | [], k, v => [(k, v)]
  | (k0, v0) :: rest, k, v =>
      if k0 = k then (k0, v) :: rest else (k0, v0) :: setField rest k v

/-- JavaScript startsWith on strings, via character lists.
The first argument is the haystack, the second the candidate leading text. -/
def charsStartWith : List Char → List Char → Bool
  | _, [] => true
  | [], _ :: _ => false
  | a :: as, b :: bs => (a = b) && charsStartWith as bs

def strStartsWith (s p : String) : Bool := charsStartWith s.toList p.toList

/-- JavaScript includes on strings: does the haystack contain the needle. -/
def charsContain (hay needle : List Char) : Bool :=
  match hay with
  | [] => needle.isEmpty
  | _ :: t => charsStartWith hay needle || charsContain t needle

def strIncludes (hay needle : String) : Bool := charsContain hay.toList needle.toList

/-- JavaScript string coercion of a value, as used by toString calls.
Arrays join their elements with commas, where null elements render empty. -/
def jsCoerceString : JSValue → String
  | .jstr s => s
  | .jnum n => toString n
  | .jbool b => cond b "true" "false"
  | .jnull => "null"
  | .jobj _ => "[object Object]"
  | .jarr xs =>
      String.intercalate ","
        (xs.attach.map (fun x =>
          match x with
          | ⟨.jnull, _⟩ => ""
          | ⟨v, _⟩ => jsCoerceString v))
termination_by v => sizeOf v
decreasing_by
  rename_i hv
  have h := List.sizeOf_lt_of_mem hv
  simp only [JSValue.jarr.sizeOf_spec]
  omega

def JSValue.isJStr : JSValue → Bool
  | .jstr _ => true
  | _ => false

/-! C8: response envelope unwrapping (src/types/responses.ts, extractArray;
src/services/JobService.ts, listJobs; TransformationService, listTransformations). -/

/-- Embedding of isODataResponse: a truthy object with an array-valued value field. -/
def isODataResponse : JSValue → Bool
  | .jobj fs =>
      match lookupField fs "value" with
      | some (.jarr _) => true
      | _ => false
  | _ => false

/-- Embedding of extractArray from src/types/responses.ts: arrays pass through,
OData envelopes yield their value array, anything else is wrapped in a
one-element array. -/
def extractArray (response : JSValue) : List JSValue :=
  match response with
  | .jarr xs => xs
  | _ =>
      if isODataResponse response then
        match response with
        | .jobj fs =>
            match lookupField fs "value" with
            | some (.jarr v) => v
            | _ => [response]
        | _ => [response]
      else [response]

/-- Embedding of the result shaping of JobService.listJobs: the raw API
response is passed through extractArray. -/
def listJobs (response : JSValue) : List JSValue := extractArray response

/-- Embedding of the result shaping of TransformationService.listTransformations. -/
def listTransformations (response : JSValue) : List JSValue := extractArray response

def JSValue.isJArr : JSValue → Bool
  | .jarr _ => true
  | _ => false

/-! C4: configuration-error taxonomy (src/services/BaseService.ts,
callWithConfigCheck and ConfigurationError). -/

structure ApiError where
  code : Option String
  status : Option Nat
  url : Option String
  message : String
  deriving Repr, DecidableEq

inductive ThrownError where
  | configurationError (message : String)
  | original (e : ApiError)
  deriving Repr, DecidableEq

def ThrownError.isConfigurationError : ThrownError → Bool
  | .configurationError _ => true
  | .original _ => false

/-- Remediation text of the ECONNREFUSED branch (quote characters of the
source literal elided). -/
def connRefusedGuidance : String :=
  "Cannot connect to CData Sync server. Please verify the base URL is correct and CData Sync is running. Use configure_sync_server tool to update the base URL."

def hostNotFoundGuidance : String :=
  "CData Sync server hostname not found. Please verify the base URL is correct. Use configure_sync_server tool to update the base URL."

def authFailedGuidance : String :=
  "Authentication failed. Please verify your credentials are correct. Use configure_sync_server tool to update authentication (authToken or username/password)."

def endpointNotFoundGuidance : String :=
  "CData Sync API endpoint not found. Please verify the base URL is correct and includes the correct path. Use configure_sync_server tool to update the base URL."

def workspaceContext (ws : String) : String := " [workspace: " ++ ws ++ "]"

/-- Embedding of the catch block of BaseService.callWithConfigCheck: the error
transformation applied before rethrowing. -/
def callWithConfigCheckErr (ws : String) (e : ApiError) : ThrownError :=
  if e.code = some "ECONNREFUSED" then
    .configurationError (connRefusedGuidance ++ workspaceContext ws)
  else if e.code = some "ENOTFOUND" then
    .configurationError (hostNotFoundGuidance ++ workspaceContext ws)
  else if e.status = some 401 then
    .configurationError (authFailedGuidance ++ workspaceContext ws)
  else if e.status = some 404 &&
          (match e.url with
           | some u => strIncludes u "/api.rsc"
           | none => false) then
    .configurationError (endpointNotFoundGuidance ++ workspaceContext ws)
  else
    .original { e with
      message :=
        if e.message ≠ "" && !(strIncludes e.message "[workspace:") then
          e.message ++ workspaceContext ws
        else e.message }

/-- Embedding of BaseService.callWithConfigCheck on the outcome of the wrapped
API call: successes pass through, errors are transformed and rethrown. -/
def callWithConfigCheck {α : Type} (ws : String) (r : Except ApiError α) :
    Except ThrownError α :=
  match r with
  | .ok a => .ok a
  | .error e => .error (callWithConfigCheckErr ws e)

/-! Configuration model (src/types/config.ts) shared by the API client, the
SyncConfigService and the MCP server. -/

structure CDataConfig where
  baseUrl : String
  authToken : Option String
  username : Option String
  password : Option String
  deriving Repr, DecidableEq

/-- Truthiness of an optional string field, matching how the source tests
configuration fields (undefined and the empty string are falsy). -/
def otruthy : Option String → Bool
  | some s => s ≠ ""
  | none => false

/-- Embedding of the hasCredentials test of makeRequest:
authToken, or both username and password. -/
def hasCredentials (c : CDataConfig) : Bool :=
  otruthy c.authToken || (otruthy c.username && otruthy c.password)

/-- The configuration holds at most one authentication mode: not an auth token
together with a username/password pair. -/
def exclusiveAuth (c : CDataConfig) : Bool :=
  !(otruthy c.authToken && (otruthy c.username && otruthy c.password))

inductive AuthHeader where
  | token (value : String)
  | basic (username password : String)
  deriving Repr, DecidableEq

/-- Embedding of the authentication part of CDataSyncApiClient.buildHeaders:
the x-cdata-authtoken header when the token is truthy, otherwise a Basic
Authorization header when both username and password are truthy, otherwise
no authentication header at all. -/
def buildAuthHeader (c : CDataConfig) : Option AuthHeader :=
  if otruthy c.authToken then some (.token (c.authToken.getD ""))
  else if otruthy c.username && otruthy c.password then
    some (.basic (c.username.getD "") (c.password.getD ""))
  else none

/-! C2 and the 401 half of C10: the 401 recovery path of
CDataSyncApiClient.makeRequest (src/api/CDataSyncApiClient.ts). -/

inductive HttpOutcome where
  | success
  | failure (status : Option Nat)
  deriving Repr, DecidableEq

/-- Behaviour of the installed credential prompt handler: absent, throwing
(the handler installed by CDataMCPServer always throws an McpError), or
returning a credentials record. -/
inductive PromptBehavior where
  | handlerAbsent
  | handlerThrows
  | handlerReturns (authToken username password : Option String)
  deriving Repr, DecidableEq

/-- Embedding of the credential update inside the 401 handler of makeRequest:
a truthy authToken replaces basic credentials; otherwise a truthy
username/password pair replaces the token; otherwise nothing changes. -/
def applyPromptCredentials (c : CDataConfig) (tok user pass : Option String) :
    CDataConfig :=
  if otruthy tok then { c with authToken := tok, username := none, password := none }
  else if otruthy user && otruthy pass then
    { c with username := user, password := pass, authToken := none }
  else c

structure MakeRequestTrace where
  requestCount : Nat
  finalConfig : CDataConfig
  deriving Repr, DecidableEq

/-- Embedding of the control flow of CDataSyncApiClient.makeRequest that
decides how many outbound HTTP requests are issued: the first request always
goes out; a second (retry) request is issued exactly when the first fails
with status 401, a credential prompt handler is installed, no credentials
are configured, and the prompt returns credentials rather than throwing. -/
def makeRequestTrace (c : CDataConfig) (prompt : PromptBehavior)
    (first : HttpOutcome) : MakeRequestTrace :=
  match first with
  | .success => ⟨1, c⟩
  | .failure st =>
      match prompt with
      | .handlerAbsent => ⟨1, c⟩
      | .handlerThrows => ⟨1, c⟩
      | .handlerReturns tok user pass =>
          if st = some 401 && !hasCredentials c then
            ⟨2, applyPromptCredentials c tok user pass⟩
          else ⟨1, c⟩

/-! C9 and C10: SyncConfigService.updateConfig
(src/services/SyncConfigService.ts). -/

structure ConfigUpdateParams where
  baseUrl : Option String
  authToken : Option String
  username : Option String
  password : Option String
  clearAuth : Option Bool
  deriving Repr, DecidableEq

/-- Embedding of the base-URL normalisation of updateConfig: trim, then ensure
the URL ends with /api.rsc. -/
def normalizeBaseUrl (url : String) : String :=
  let u := url.trim
  if u.endsWith "/api.rsc" then u
  else if u.endsWith "/" then u ++ "api.rsc"
  else u ++ "/" ++ "api.rsc"

/-- Embedding of SyncConfigService.validateConfig: returns validity and the
message of the first failing check. -/
def validateConfig (c : CDataConfig) : Bool × String :=
  if c.baseUrl = "" then (false, "Base URL is required")
  else if !(otruthy c.authToken || (otruthy c.username && otruthy c.password)) then
    (false, "Authentication is required. Provide either authToken or username/password.")
  else if !(otruthy c.authToken) && otruthy c.username && !(otruthy c.password) then
    (false, "Password is required when using basic authentication")
  else (true, "Configuration is valid")

/-- Outcome of the test request issued by updateConfig against /connections
with the candidate configuration: none means the request succeeded. -/
structure TestFailure where
  status : Option Nat
  code : Option String
  message : String
  deriving Repr, DecidableEq

structure ConfigUpdateResult where
  stored : CDataConfig
  callbackFired : Bool
  success : Bool
  message : String
  deriving Repr, DecidableEq

/-- The merged candidate configuration built by updateConfig from the current
configuration and the update parameters: the normalised base URL, then the
authentication handling (clearAuth deletes all credentials; an authToken
deletes basic credentials; a username or password deletes the token). -/
def applyConfigParams (cfg : CDataConfig) (p : ConfigUpdateParams) : CDataConfig :=
  let c1 : CDataConfig :=
    { cfg with baseUrl := match p.baseUrl with
                          | some u => normalizeBaseUrl u
                          | none => cfg.baseUrl }
  if p.clearAuth = some true then
    { c1 with authToken := none, username := none, password := none }
  else if p.authToken.isSome then
    { c1 with authToken := p.authToken, username := none, password := none }
  else if p.username.isSome || p.password.isSome then
    let c1a := match p.username with
               | some u => { c1 with username := some u }
               | none => c1
    let c1b := match p.password with
               | some pw => { c1a with password := some pw }
               | none => c1a
    { c1b with authToken := none }
  else c1

/-- Embedding of SyncConfigService.updateConfig. The URL validity predicate
(isValidUrl, a WHATWG URL parse in the source) and the outcome of the test
request are parameters; hasOnConfigChange records whether an onConfigChange
callback is installed. The result carries the configuration stored after the
call, whether the callback fired, and the response envelope. -/
def updateConfig (isValidUrl : String → Bool) (testOutcome : Option TestFailure)
    (hasOnConfigChange : Bool) (cfg : CDataConfig) (p : ConfigUpdateParams) :
    ConfigUpdateResult :=
  if otruthy p.baseUrl && !isValidUrl (p.baseUrl.getD "") then
    ⟨cfg, false, false, "Invalid base URL format. Must be a valid HTTP/HTTPS URL."⟩
  else if (match p.authToken with | some t => decide (t.length < 10) | none => false) then
    ⟨cfg, false, false, "Auth token must be at least 10 characters long"⟩
  else if (match p.password with | some pw => decide (pw.length < 8) | none => false) then
    ⟨cfg, false, false, "Password must be at least 8 characters long"⟩
  else
    match validateConfig (applyConfigParams cfg p) with
    | (false, msg) => ⟨cfg, false, false, msg⟩
    | (true, _) =>
        match testOutcome with
        | none =>
            ⟨applyConfigParams cfg p, hasOnConfigChange, true,
              "Configuration updated successfully. Connected to CData Sync at " ++
                (applyConfigParams cfg p).baseUrl⟩
        | some f =>
            ⟨cfg, false, false,
              "Failed to connect with new configuration: " ++
                (if f.status = some 401 then "Authentication failed. Check credentials."
                 else if f.status = some 404 then "API endpoint not found. Check base URL."
                 else if f.code = some "ECONNREFUSED" then
                   "Connection refused. Check if CData Sync is running."
                 else f.message)⟩

/-! C3: workspace override (src/server/CDataMCPServer.ts withWorkspaceOverride
and src/services/BaseService.ts withWorkspace). -/

/-- Client state: the configuration plus the current workspace id. -/
structure ClientState where
  config : CDataConfig
  workspace : String
  deriving Repr, DecidableEq

/-- Modelled from the spec: the getWorkspace accessor of CDataSyncApiClient is
referenced by BaseService and CDataMCPServer but the workspace-aware client
source is not under src; the spec describes an in-memory workspace-id
override, so getWorkspace reads the stored workspace id. -/
def getWorkspace (st : ClientState) : String := st.workspace

/-- Modelled from the spec: the setWorkspace mutator of CDataSyncApiClient is
referenced by BaseService and CDataMCPServer but the workspace-aware client
source is not under src; following the spec it replaces the in-memory
workspace id and touches nothing else. -/
def setWorkspace (st : ClientState) (w : String) : ClientState :=
  { st with workspace := w }

/-- A wrapped operation: it may read and update the client state (its API
calls can, for instance, update credentials) and either returns a value or
throws. -/
def ClientOp (α : Type) : Type := ClientState → ClientState × Except String α

/-- Embedding of BaseService.withWorkspace: remember the current workspace,
set the override, run the operation, and restore the original workspace in a
finally block (so on both the normal and the throwing path). -/
def withWorkspace {α : Type} (w : String) (op : ClientOp α) (st : ClientState) :
    ClientState × Except String α :=
  let originalWorkspace := getWorkspace st
  let st1 := setWorkspace st w
  let r := op st1
  (setWorkspace r.1 originalWorkspace, r.2)

/-- Embedding of CDataMCPServer.withWorkspaceOverride: without a workspaceId
the operation runs directly; with one, the workspace is validated first
(validateWorkspace performs an API call and may throw), then the
try/finally override pattern runs around the operation. -/
def withWorkspaceOverride {α : Type}
    (validateWorkspace : ClientState → ClientState × Option String)
    (workspaceId : Option String) (op : ClientOp α) (st : ClientState) :
    ClientState × Except String α :=
  match workspaceId with
  | none => op st
  | some w =>
      match validateWorkspace st with
      | (st1, some err) => (st1, .error err)
      | (st1, none) =>
          let originalWorkspace := getWorkspace st1
          let st2 := setWorkspace st1 w
          let r := op st2
          (setWorkspace r.1 originalWorkspace, r.2)

/-! C5: required-parameter validation
(src/services/RequiredParameterValidation.ts and the CallTool handler of
src/server/CDataMCPServer.ts). -/

def assocLookup {α : Type} : List (String × α) → String → Option α
  | [], _ => none
  | (k, v) :: rest, key => if k = key then some v else assocLookup rest key

/-- Embedding of the REQUIRED_PARAMETERS table. -/
def REQUIRED_PARAMETERS : List (String × List (String × List String)) :=
  [("write_connections",
     [("create", ["name", "providerName", "connectionString"]),
      ("update", ["name"]),
      ("delete", ["name"])]),
   ("write_jobs",
     [("create", ["jobName", "source", "destination"]),
      ("update", ["jobName"]),
      ("delete", ["jobName"])]),
   ("write_tasks",
     [("create", ["jobName"]),
      ("update", ["jobName", "taskId"]),
      ("delete", ["jobName", "taskId"])]),
   ("write_transformations",
     [("create", ["transformationName", "connection"]),
      ("update", ["transformationName"]),
      ("delete", ["transformationName"])]),
   ("write_users",
     [("create", ["user", "password", "roles"]),
      ("update", ["user"])]),
   ("execute_job", [("execute", [])]),
   ("execute_query", [("execute", ["queries"])]),
   ("configure_sync_server", [("update", [])])]

/-- A standard required parameter is missing when it is undefined, null, or
the empty string. -/
def isMissingParam (params : List (String × JSValue)) (p : String) : Bool :=
  match lookupField params p with
  | none => true
  | some .jnull => true
  | some (.jstr "") => true
  | some _ => false

/-- Truthiness of a possibly undefined property. -/
def jtruthy : Option JSValue → Bool
  | some v => truthy v
  | none => false

/-- Embedding of the per-user checks of the write_users create special case. -/
def usersMissing (params : List (String × JSValue)) : List String :=
  (if !jtruthy (lookupField params "user") && !jtruthy (lookupField params "users")
   then ["user OR users array"] else []) ++
  (match lookupField params "users" with
   | some (.jarr users) =>
       (users.enum.flatMap (fun iu =>
         (if !jtruthy (getField iu.2 "user")
          then ["users[" ++ toString iu.1 ++ "].user"] else []) ++
         (if !jtruthy (getField iu.2 "password")
          then ["users[" ++ toString iu.1 ++ "].password"] else []) ++
         (if !jtruthy (getField iu.2 "roles")
          then ["users[" ++ toString iu.1 ++ "].roles"] else [])))
   | _ => [])

/-- The missing-parameter list accumulated by validateRequiredParameters:
standard required parameters per tool/action, followed by the special-case
checks, in source order; empty for a tool absent from the table. -/
def missingFor (toolName action : String)
    (params : List (String × JSValue)) : List String :=
  match assocLookup REQUIRED_PARAMETERS toolName with
  | none => []
  | some toolParams =>
      let requiredParams := (assocLookup toolParams action).getD []
      let m1 := requiredParams.filter (fun p => isMissingParam params p)
      let m2 := m1 ++
        (if toolName = "write_tasks" && action = "create" &&
            !jtruthy (lookupField params "query") &&
            !jtruthy (lookupField params "table")
         then ["query OR table"] else [])
      let m3 := m2 ++
        (if (toolName = "execute_job" || toolName = "execute_query") &&
            !jtruthy (lookupField params "jobName") &&
            !jtruthy (lookupField params "jobId")
         then ["jobName OR jobId"] else [])
      let m4 := m3 ++
        (if toolName = "write_users" && action = "create"
         then usersMissing params else [])
      m4 ++
        (if toolName = "configure_sync_server" && action = "update" &&
            !(jtruthy (lookupField params "baseUrl") ||
              jtruthy (lookupField params "authToken") ||
              (jtruthy (lookupField params "username") &&
               jtruthy (lookupField params "password")) ||
              jtruthy (lookupField params "clearAuth"))
         then ["baseUrl, authToken, OR username/password"] else [])

/-- Embedding of validateRequiredParameters: valid exactly when no parameter
is missing (a tool absent from the table accumulates nothing and is always
valid). -/
def validateRequiredParameters (toolName action : String)
    (params : List (String × JSValue)) : Bool × List String :=
  ((missingFor toolName action params).isEmpty, missingFor toolName action params)

/-- The action used for validation: args.action when truthy (a string is its
own property key; any other truthy value is coerced), the default execute
otherwise. -/
def actionOf (args : List (String × JSValue)) : String :=
  match lookupField args "action" with
  | some (.jstr s) => if s ≠ "" then s else "execute"
  | some v => if truthy v then jsCoerceString v else "execute"
  | none => "execute"

/-- Embedding of CDataMCPServer.validateToolParameters: only write_ and
execute_ tools and configure_sync_server are validated; everything else
passes unconditionally. -/
def validateToolParameters (toolName : String) (args : List (String × JSValue)) :
    Bool × List String :=
  if strStartsWith toolName "write_" || strStartsWith toolName "execute_" ||
     toolName = "configure_sync_server" then
    validateRequiredParameters toolName (actionOf args) args
  else (true, [])

inductive ToolCallOutcome where
  | rejected (missingParams : List String)
  | dispatched
  deriving Repr, DecidableEq

/-- Embedding of the validation gate at the top of the CallTool handler: an
invalid parameter set raises an error naming the missing parameters before
any service method (and hence any outbound HTTP request) is reached. -/
def callToolGate (toolName : String) (args : List (String × JSValue)) :
    ToolCallOutcome :=
  let v := validateToolParameters toolName args
  if !v.1 then .rejected v.2 else .dispatched

/-- The error message raised for a failed validation. -/
def missingParamsMessage (ms : List String) : String :=
  "Missing required parameters: " ++ String.intercalate ", " ms

/-- The standard required parameters of a tool/action pair, as the validator
reads them from REQUIRED_PARAMETERS. -/
def requiredFor (toolName action : String) : List String :=
  match assocLookup REQUIRED_PARAMETERS toolName with
  | none => []
  | some toolParams => (assocLookup toolParams action).getD []

/-! C6: request-response correlation of the streamable HTTP transport
(src/transport/StreamableHttpTransport.ts). -/

inductive MsgId where
  | str (s : String)
  | num (n : Int)
  deriving Repr, DecidableEq

/-- The shape of a JSON-RPC message as far as the transport inspects it. -/
structure JMsg where
  id : Option MsgId
  hasMethod : Bool
  hasResult : Bool
  hasError : Bool
  deriving Repr, DecidableEq

/-- Embedding of isResponse: an id together with a result or error member. -/
def JMsg.isResponse (m : JMsg) : Bool := m.id.isSome && (m.hasResult || m.hasError)

/-- Embedding of isRequest: method and id members. -/
def JMsg.isRequest (m : JMsg) : Bool := m.hasMethod && m.id.isSome

/-- A pending entry of the request-id map: the id and the duration of its
timer in milliseconds. -/
structure PendingEntry where
  id : MsgId
  timerMs : Nat
  deriving Repr, DecidableEq

structure TransportState where
  isStarted : Bool
  pending : List PendingEntry
  bufferedCount : Nat
  deriving Repr, DecidableEq

/-- Embedding of the constructor default: config.timeout falls back to 30000
when absent or zero (a JavaScript truthiness fallback). -/
def resolvedTimeout (configTimeout : Option Nat) : Nat :=
  match configTimeout with
  | some t => if t = 0 then 30000 else t
  | none => 30000

def pendingIds (l : List PendingEntry) : List MsgId := l.map (·.id)

/-- Map.set keyed by id: replace the entry in place, or append. -/
def pendingSet (l : List PendingEntry) (e : PendingEntry) : List PendingEntry :=
  if l.any (fun x => x.id = e.id) then
    l.map (fun x => if x.id = e.id then e else x)
  else l ++ [e]

/-- Map.delete keyed by id. -/
def pendingDelete (l : List PendingEntry) (i : MsgId) : List PendingEntry :=
  l.filter (fun x => x.id ≠ i)

inductive RequestEffect where
  | awaitingResponse
  | rejectedNoHandler
  deriving Repr, DecidableEq

/-- Embedding of handleClientRequest: a timer of the configured timeout is
set, the pending entry is stored under the request id, and the request is
forwarded to the message handler; without a handler the entry is removed
again and the promise rejected. -/
def handleClientRequest (configTimeout : Option Nat) (hasOnMessage : Bool)
    (st : TransportState) (reqId : MsgId) : TransportState × RequestEffect :=
  let st1 := { st with pending := pendingSet st.pending ⟨reqId, resolvedTimeout configTimeout⟩ }
  if hasOnMessage then (st1, .awaitingResponse)
  else ({ st1 with pending := pendingDelete st1.pending reqId }, .rejectedNoHandler)

inductive SendEffect where
  | buffered
  | resolvedPending (response : JMsg)
  | broadcastToStreams
  deriving Repr, DecidableEq

/-- Embedding of StreamableHttpTransport.send: messages are buffered before
start; a response whose id matches a pending entry clears that timer,
removes the entry and resolves the waiting HTTP request with the response
(returning before any SSE broadcast); every other message is broadcast to
the stream clients. -/
def send (st : TransportState) (msg : JMsg) : TransportState × SendEffect :=
  if !st.isStarted then
    ({ st with bufferedCount := st.bufferedCount + 1 }, .buffered)
  else
    match msg.id with
    | some i =>
        if (msg.hasResult || msg.hasError) && st.pending.any (fun x => x.id = i) then
          ({ st with pending := pendingDelete st.pending i }, .resolvedPending msg)
        else (st, .broadcastToStreams)
    | none => (st, .broadcastToStreams)

/-- Embedding of the timer callback registered by handleClientRequest: on
expiry the pending entry is deleted and the request rejected with the
Request timeout message. -/
def timeoutFire (st : TransportState) (i : MsgId) : TransportState × String :=
  ({ st with pending := pendingDelete st.pending i }, "Request timeout")

/-! C7: the POST message endpoint (setupRoutes and validateMessage of
src/transport/StreamableHttpTransport.ts, createErrorResponse of
src/types/jsonrpc.ts). -/

/-- Embedding of createErrorResponse from src/types/jsonrpc.ts. -/
def createErrorResponse (id : JSValue) (code : Int) (message : String)
    (data : Option String) : JSValue :=
  .jobj [("jsonrpc", .jstr "2.0"), ("id", id),
         ("error", .jobj ([("code", .jnum code), ("message", .jstr message)] ++
           (match data with
            | some d => [("data", .jstr d)]
            | none => [])))]

/-- A truthy value of JavaScript type object (arrays included, null excluded
by truthiness). -/
def isTruthyObject : JSValue → Bool
  | .jobj _ => true
  | .jarr _ => true
  | _ => false

/-- Strict comparison body.jsonrpc === the string 2.0. -/
def hasJsonrpc20 (body : JSValue) : Bool :=
  match body with
  | .jobj fs =>
      match lookupField fs "jsonrpc" with
      | some (.jstr s) => s = "2.0"
      | _ => false
  | _ => false

/-- Embedding of validateMessage as the message of the error it throws, none
when the body passes. -/
def validateMessageError (body : JSValue) : Option String :=
  if !isTruthyObject body then some "Invalid JSON-RPC message format"
  else if !hasJsonrpc20 body then some "Invalid JSON-RPC version"
  else none

/-- Embedding of the method and id presence test used to route a valid body. -/
def isRequestBody (body : JSValue) : Bool :=
  (getField body "method").isSome && (getField body "id").isSome

/-- The id used in the 400 error envelope: body.id when defined, null
otherwise. -/
def errorIdOf (body : JSValue) : JSValue :=
  match getField body "id" with
  | some v => v
  | none => .jnull

inductive HttpReply where
  | jsonReply (status : Nat) (body : JSValue)
  | noContent
  | requestHandled

/-- Embedding of the POST /message route handler: an invalid body yields a
400 with a -32600 Invalid Request envelope; a valid request is correlated
and answered with the eventual response; a valid response or notification is
forwarded and acknowledged with 204 and no body. -/
def postMessage (body : JSValue) : HttpReply :=
  match validateMessageError body with
  | some msg =>
      .jsonReply 400 (createErrorResponse (errorIdOf body) (-32600) "Invalid Request" (some msg))
  | none =>
      if isRequestBody body then .requestHandled
      else .noContent

/-! C1, request side: CDataSyncApiClient.transformRequest
(src/api/CDataSyncApiClient.ts). -/

/-- Embedding of the idFields list of transformRequest. -/
def idFields : List String :=
  ["TaskId", "JobId", "UserId", "TransformationId", "Id", "HistoryId",
   "RequestId", "ConnectionId", "CertificateId", "LogId", "SessionId",
   "RunId", "ExecutionId", "InstanceId", "ParentId", "RootId",
   "taskId", "jobId", "userId", "transformationId", "id", "historyId"]

/-- One pass of the transformRequest loop body: a defined, non-string value of
the field is replaced by its toString form; toString on null throws. -/
def transformRequestStep (acc : List (String × JSValue)) (field : String) :
    Except String (List (String × JSValue)) :=
  match lookupField acc field with
  | some v =>
      if !v.isJStr then
        match v with
        | .jnull => .error "TypeError"
        | _ => .ok (setField acc field (.jstr (jsCoerceString v)))
      else .ok acc
  | none => .ok acc

/-- Embedding of the object transformation of transformRequest: every listed
ID field with a defined non-string value is converted to its string form
before the body is serialised. -/
def transformRequestFields (data : List (String × JSValue)) :
    Except String (List (String × JSValue)) :=
  idFields.foldlM transformRequestStep data

/-! C1, response side: parseJSONWithBigInt (src/api/CDataSyncApiClient.ts).
The regex replacement is embedded as a character scanner with the leftmost,
non-overlapping, global semantics of String.replace. -/

/-- The regex word-character class. -/
def isWordChar (c : Char) : Bool :=
  (('a' ≤ c && c ≤ 'z') || ('A' ≤ c && c ≤ 'Z') ||
   ('0' ≤ c && c ≤ '9') || c = '_')

/-- The regex digit class. -/
def isDigitChar (c : Char) : Bool := '0' ≤ c && c ≤ '9'

/-- The regex whitespace class (the forms that can occur in a JSON body). -/
def isSpaceChar (c : Char) : Bool := c.isWhitespace

def quoteChar : Char := '"'

/-- The literal alternatives of the field-name group of the regex. -/
def idNameLiterals : List (List Char) :=
  ["Count", "Size", "Affected", "Days", "Timeout", "Interval",
   "ExpirationDays", "Keysize", "Runtime", "Records", "Rows", "Total",
   "Limit", "Offset", "Skip", "Top", "Index", "Version", "Port", "Code",
   "Status"].map String.toList

/-- The first alternative of the group: word characters ending in Id or id. -/
def endsWithId (s : List Char) : Bool :=
  match s.reverse with
  | 'd' :: c :: _ => c = 'I' || c = 'i'
  | _ => false

/-- Whether a field name matches the group of the bigIntRegex. -/
def nameMatches (s : List Char) : Bool :=
  (s.all isWordChar && endsWithId s) || decide (s ∈ idNameLiterals)

/-- Split a character list at its first quote: the span before it and the
rest after it. -/
def splitQuote : List Char → Option (List Char × List Char)
  | [] => none
  | c :: t =>
      if c = quoteChar then some ([], t)
      else
        match splitQuote t with
        | some (s, r) => some (c :: s, r)
        | none => none

/-- Attempt to match the bigIntRegex at the head of the text: an opening
quote, a field name matching the group, a closing quote, optional
whitespace, a colon, optional whitespace, and a run of at least 16 digits.
Returns the name, the digit run and the rest of the text after the match. -/
def tryMatch (cs : List Char) : Option (List Char × List Char × List Char) :=
  match cs with
  | [] => none
  | c :: t =>
      if c = quoteChar then
        match splitQuote t with
        | some (name, r1) =>
            if nameMatches name then
              match r1.dropWhile isSpaceChar with
              | c2 :: r3 =>
                  if c2 = ':' then
                    let r4 := r3.dropWhile isSpaceChar
                    let ds := r4.takeWhile isDigitChar
                    if 16 ≤ ds.length then
                      some (name, ds, r4.dropWhile isDigitChar)
                    else none
                  else none
              | [] => none
            else none
        | none => none
      else none

theorem splitQuote_spec : ∀ {t s r : List Char},
    splitQuote t = some (s, r) → t = s ++ quoteChar :: r ∧ quoteChar ∉ s := by
  intro t
  induction t with
  | nil => intro s r h; simp [splitQuote] at h
  | cons c t ih =>
      intro s r h
      by_cases hc : c = quoteChar
      · subst hc
        simp [splitQuote] at h
        obtain ⟨hs, hr⟩ := h
        subst hs; subst hr
        simp
      · simp [splitQuote, hc] at h
        cases hsq : splitQuote t with
        | none => rw [hsq] at h; simp at h
        | some p =>
            rw [hsq] at h
            cases p with
            | mk s0 r0 =>
                simp at h
                obtain ⟨hs, hr⟩ := h
                subst hr
                obtain ⟨h1, h2⟩ := ih hsq
                constructor
                · rw [← hs]; simp [h1]
                · rw [← hs]
                  simp only [List.mem_cons, not_or]
                  exact ⟨fun hq => hc hq.symm, h2⟩

theorem tryMatch_shrinks {cs name ds rest : List Char}
    (h : tryMatch cs = some (name, ds, rest)) : rest.length < cs.length := by
  match cs with
  | [] => simp [tryMatch] at h
  | c :: t =>
      by_cases hc : c = quoteChar
      · rw [tryMatch, if_pos hc] at h
        cases hsq : splitQuote t with
        | none => rw [hsq] at h; simp at h
        | some p =>
            obtain ⟨nm, r1⟩ := p
            rw [hsq] at h
            simp only at h
            by_cases hnm : nameMatches nm
            · rw [if_pos hnm] at h
              cases hdw : r1.dropWhile isSpaceChar with
              | nil => rw [hdw] at h; simp at h
              | cons c3 r3 =>
                  rw [hdw] at h
                  simp only at h
                  by_cases hc3 : c3 = ':'
                  · rw [if_pos hc3] at h
                    by_cases hlen :
                        16 ≤ ((r3.dropWhile isSpaceChar).takeWhile isDigitChar).length
                    · rw [if_pos hlen] at h
                      simp only [Option.some.injEq, Prod.mk.injEq] at h
                      obtain ⟨_, _, hrest⟩ := h
                      have h1 : rest.length ≤ (r3.dropWhile isSpaceChar).length := by
                        rw [← hrest]
                        exact ((r3.dropWhile isSpaceChar).dropWhile_sublist _).length_le
                      have h2 : (r3.dropWhile isSpaceChar).length ≤ r3.length :=
                        (r3.dropWhile_sublist _).length_le
                      have h4 : r3.length + 1 = (r1.dropWhile isSpaceChar).length := by
                        rw [hdw]; simp
                      have h5 : (r1.dropWhile isSpaceChar).length ≤ r1.length :=
                        (r1.dropWhile_sublist _).length_le
                      have h6 : r1.length < t.length + 1 := by
                        obtain ⟨heq, _⟩ := splitQuote_spec hsq
                        rw [heq]
                        simp only [List.length_append, List.length_cons]
                        omega
                      simp only [List.length_cons]
                      omega
                    · rw [if_neg hlen] at h; simp at h
                  · rw [if_neg hc3] at h; simp at h
            · rw [if_neg hnm] at h; simp at h
      · rw [tryMatch, if_neg hc] at h; simp at h

/-- Embedding of the global regex replacement of parseJSONWithBigInt: at each
position, a match emits the quoted replacement and continues after the
matched text; otherwise one character is copied. -/
def replaceBigInt (cs : List Char) : List Char :=
  match h : tryMatch cs with
  | some (name, ds, rest) =>
      quoteChar :: name ++ quoteChar :: ':' :: quoteChar :: ds ++
        quoteChar :: replaceBigInt rest
  | none =>
      match cs with
      | [] => []
      | c :: t => c :: replaceBigInt t
termination_by cs.length
decreasing_by
  · exact tryMatch_shrinks h
  · simp

theorem replaceBigInt_nil : replaceBigInt [] = [] := by
  rw [replaceBigInt]
  rfl

theorem replaceBigInt_of_match {cs name ds rest : List Char}
    (h : tryMatch cs = some (name, ds, rest)) :
    replaceBigInt cs =
      quoteChar :: name ++ quoteChar :: ':' :: quoteChar :: ds ++
        quoteChar :: replaceBigInt rest := by
  rw [replaceBigInt]
  split
  · rename_i nm d r hm
    rw [h] at hm
    simp only [Option.some.injEq, Prod.mk.injEq] at hm
    obtain ⟨h1, h2, h3⟩ := hm
    rw [h1, h2, h3]
  · rename_i hm
    rw [h] at hm
    simp at hm

theorem replaceBigInt_of_nomatch {c : Char} {t : List Char}
    (h : tryMatch (c :: t) = none) :
    replaceBigInt (c :: t) = c :: replaceBigInt t := by
  rw [replaceBigInt]
  split
  · rename_i nm d r hm
    rw [h] at hm
    simp at hm
  · rfl

/-- Atoms of the flat JSON objects over which the response claim is stated:
an unquoted run of digit characters, or a quoted string. -/
inductive Atom where
  | num (ds : List Char)
  | str (s : List Char)
  deriving Repr, DecidableEq

def renderAtom : Atom → List Char
  | .num ds => ds
  | .str s => quoteChar :: s ++ [quoteChar]

/-- Canonical JSON rendering of one member, without whitespace. -/
def renderField (f : List Char × Atom) : List Char :=
  quoteChar :: f.1 ++ quoteChar :: ':' :: renderAtom f.2

def renderInner : List (List Char × Atom) → List Char
  | [] => []
  | [f] => renderField f
  | f :: g :: fs => renderField f ++ ',' :: renderInner (g :: fs)

/-- Canonical JSON rendering of a flat object. -/
def renderObject (l : List (List Char × Atom)) : List Char :=
  '{' :: renderInner l ++ ['}']

/-- The structural effect the regex replacement is meant to have: a numeric
atom of at least 16 digits under a matching field name becomes the string
atom holding exactly those digits. -/
def quoteBig : (List Char × Atom) → (List Char × Atom)
  | (n, .num ds) =>
      if nameMatches n && 16 ≤ ds.length then (n, .str ds) else (n, .num ds)
  | f => f

/-- Well-formedness of a field for the rendering: the name and any string
content are quote-free, and numeric atoms are nonempty digit runs. -/
def goodField (f : List Char × Atom) : Prop :=
  quoteChar ∉ f.1 ∧
    match f.2 with
    | .num ds => ds ≠ [] ∧ ∀ c ∈ ds, isDigitChar c = true
    | .str s => quoteChar ∉ s

/-- The shapes a rendered object can continue with after one field: the
closing brace, or a comma followed by more text. -/
def restOk (rest : List Char) : Prop :=
  rest = ['}'] ∨ ∃ r, rest = ',' :: r

theorem digit_ne_quote {c : Char} (h : isDigitChar c = true) : c ≠ quoteChar := by
  intro hq
  subst hq
  exact absurd h (by decide)

theorem digit_not_space {c : Char} (h : isDigitChar c = true) :
    isSpaceChar c = false := by
  have hw : isSpaceChar c = true → isDigitChar c = false := by
    intro hs
    simp only [isSpaceChar, Char.isWhitespace, Bool.or_eq_true, decide_eq_true_eq] at hs
    rcases hs with ((h1 | h1) | h1) | h1 <;> (subst h1; decide)
  cases hsp : isSpaceChar c with
  | false => rfl
  | true => rw [hw hsp] at h; exact absurd h (by simp)

theorem nameMatches_false_of_nonword {s : List Char} {c : Char}
    (hmem : c ∈ s) (hw : isWordChar c = false) : nameMatches s = false := by
  have hlit : ∀ l ∈ idNameLiterals, ∀ d ∈ l, isWordChar d = true := by decide
  simp only [nameMatches, Bool.or_eq_false_iff, Bool.and_eq_false_iff,
    decide_eq_false_iff_not]
  constructor
  · left
    cases hall : s.all isWordChar with
    | false => rfl
    | true =>
        rw [List.all_eq_true] at hall
        rw [hall c hmem] at hw
        exact absurd hw (by simp)
  · intro hin
    rw [hlit s hin c hmem] at hw
    exact absurd hw (by simp)

theorem splitQuote_append {s r : List Char} (hs : quoteChar ∉ s) :
    splitQuote (s ++ quoteChar :: r) = some (s, r) := by
  induction s with
  | nil => simp [splitQuote]
  | cons c t ih =>
      have hc : c ≠ quoteChar := fun h => hs (by simp [h])
      have ht : quoteChar ∉ t := fun h => hs (by simp [h])
      simp only [List.cons_append, splitQuote, if_neg hc, List.append_eq, ih ht]

theorem tryMatch_none_of_head {c : Char} {t : List Char} (hc : c ≠ quoteChar) :
    tryMatch (c :: t) = none := by
  simp [tryMatch, hc]

theorem replace_copies {xs rest : List Char} (hx : quoteChar ∉ xs) :
    replaceBigInt (xs ++ rest) = xs ++ replaceBigInt rest := by
  induction xs with
  | nil => rfl
  | cons c t ih =>
      have hc : c ≠ quoteChar := fun h => hx (by simp [h])
      have ht : quoteChar ∉ t := fun h => hx (by simp [h])
      simp only [List.cons_append]
      rw [replaceBigInt_of_nomatch (tryMatch_none_of_head hc), ih ht]

theorem tryMatch_none_nonword {c0 : Char} {t0 : List Char}
    (hq : c0 ≠ quoteChar) (hw : isWordChar c0 = false) :
    tryMatch (quoteChar :: c0 :: t0) = none := by
  rw [tryMatch, if_pos rfl]
  cases hsq : splitQuote (c0 :: t0) with
  | none => rfl
  | some p =>
      obtain ⟨s, r⟩ := p
      obtain ⟨heq, _⟩ := splitQuote_spec hsq
      match s, heq with
      | [], heq =>
          simp only [List.nil_append] at heq
          exact absurd (List.head_eq_of_cons_eq heq) hq
      | c1 :: s1, heq =>
          have hc1 : c1 = c0 := (List.head_eq_of_cons_eq heq).symm
          have hmem : c0 ∈ c1 :: s1 := by rw [hc1]; simp
          simp only [nameMatches_false_of_nonword hmem hw]
          rfl

/-- Digit runs are taken whole by the greedy quantifier. -/
def headNotDigit : List Char → Prop
  | [] => True
  | c :: _ => isDigitChar c = false

theorem takeWhile_digit_run {ds rest : List Char}
    (hd : ∀ c ∈ ds, isDigitChar c = true) (hr : headNotDigit rest) :
    (ds ++ rest).takeWhile isDigitChar = ds ∧
      (ds ++ rest).dropWhile isDigitChar = rest := by
  induction ds with
  | nil =>
      simp only [List.nil_append]
      cases rest with
      | nil => simp
      | cons c r =>
          simp only [headNotDigit] at hr
          simp [List.takeWhile_cons, List.dropWhile_cons, hr]
  | cons c t ih =>
      have hc : isDigitChar c = true := hd c (by simp)
      have ht : ∀ x ∈ t, isDigitChar x = true := fun x hx => hd x (by simp [hx])
      obtain ⟨h1, h2⟩ := ih ht
      simp [List.takeWhile_cons, List.dropWhile_cons, hc, h1, h2]

theorem tryMatch_trigger {n ds rest : List Char} (hn : quoteChar ∉ n)
    (hm : nameMatches n = true) (hd : ∀ c ∈ ds, isDigitChar c = true)
    (hne : ds ≠ []) (hlen : 16 ≤ ds.length) (hr : headNotDigit rest) :
    tryMatch (quoteChar :: n ++ quoteChar :: ':' :: ds ++ rest) =
      some (n, ds, rest) := by
  have hsq : splitQuote (n ++ quoteChar :: (':' :: (ds ++ rest))) =
      some (n, ':' :: (ds ++ rest)) := splitQuote_append hn
  have hws : (':' :: (ds ++ rest)).dropWhile isSpaceChar = ':' :: (ds ++ rest) := by
    simp [List.dropWhile_cons, show isSpaceChar ':' = false by decide]
  have hws2 : (ds ++ rest).dropWhile isSpaceChar = ds ++ rest := by
    cases ds with
    | nil => exact absurd rfl hne
    | cons d t =>
        have : isSpaceChar d = false := digit_not_space (hd d (by simp))
        simp [List.dropWhile_cons, this]
  obtain ⟨h1, h2⟩ := takeWhile_digit_run hd hr
  rw [show (quoteChar :: n ++ quoteChar :: ':' :: ds ++ rest : List Char) =
      quoteChar :: (n ++ quoteChar :: (':' :: (ds ++ rest))) by simp]
  simp [tryMatch, hsq, hm, hws, hws2, h1, h2, hlen]

/-- Failure shape used after a string value: the text following the closing
quote starts (after no whitespace) with something other than a colon. -/
def notColonStart : List Char → Prop
  | [] => True
  | c :: _ => isSpaceChar c = false ∧ c ≠ ':'

theorem tryMatch_none_span {content rest : List Char} (hcq : quoteChar ∉ content)
    (hr : notColonStart rest) :
    tryMatch (quoteChar :: content ++ quoteChar :: rest) = none := by
  rw [show (quoteChar :: content ++ quoteChar :: rest : List Char) =
      quoteChar :: (content ++ quoteChar :: rest) by simp]
  cases hnm : nameMatches content with
  | false => simp [tryMatch, splitQuote_append hcq, hnm]
  | true =>
      cases rest with
      | nil => simp [tryMatch, splitQuote_append hcq, hnm, List.dropWhile]
      | cons c r =>
          obtain ⟨hs, hc⟩ := hr
          simp [tryMatch, splitQuote_append hcq, hnm, List.dropWhile_cons, hs, hc]

theorem tryMatch_none_strval {n rest0 : List Char} (hn : quoteChar ∉ n) :
    tryMatch (quoteChar :: n ++ quoteChar :: ':' :: quoteChar :: rest0) = none := by
  have hws : (':' :: quoteChar :: rest0).dropWhile isSpaceChar =
      ':' :: quoteChar :: rest0 := by
    simp [List.dropWhile_cons, show isSpaceChar ':' = false by decide]
  have hws2 : (quoteChar :: rest0).dropWhile isSpaceChar = quoteChar :: rest0 := by
    simp [List.dropWhile_cons, show isSpaceChar quoteChar = false by decide]
  have htw : (quoteChar :: rest0).takeWhile isDigitChar = [] := by
    simp [List.takeWhile_cons, show isDigitChar quoteChar = false by decide]
  rw [show (quoteChar :: n ++ quoteChar :: ':' :: quoteChar :: rest0 : List Char) =
      quoteChar :: (n ++ quoteChar :: (':' :: quoteChar :: rest0)) by simp]
  cases hnm : nameMatches n with
  | false => simp [tryMatch, splitQuote_append hn, hnm]
  | true => simp [tryMatch, splitQuote_append hn, hnm, hws, hws2, htw]

theorem tryMatch_none_numval {n ds rest : List Char} (hn : quoteChar ∉ n)
    (hd : ∀ c ∈ ds, isDigitChar c = true) (hne : ds ≠ [])
    (hr : headNotDigit rest)
    (hfail : (nameMatches n && decide (16 ≤ ds.length)) = false) :
    tryMatch (quoteChar :: n ++ quoteChar :: ':' :: ds ++ rest) = none := by
  have hws : (':' :: (ds ++ rest)).dropWhile isSpaceChar = ':' :: (ds ++ rest) := by
    simp [List.dropWhile_cons, show isSpaceChar ':' = false by decide]
  have hws2 : (ds ++ rest).dropWhile isSpaceChar = ds ++ rest := by
    cases ds with
    | nil => exact absurd rfl hne
    | cons d t =>
        have : isSpaceChar d = false := digit_not_space (hd d (by simp))
        simp [List.dropWhile_cons, this]
  obtain ⟨h1, _⟩ := takeWhile_digit_run hd hr
  rw [show (quoteChar :: n ++ quoteChar :: ':' :: ds ++ rest : List Char) =
      quoteChar :: (n ++ quoteChar :: (':' :: (ds ++ rest))) by simp]
  cases hnm : nameMatches n with
  | false => simp [tryMatch, splitQuote_append hn, hnm]
  | true =>
      rw [hnm] at hfail
      simp only [Bool.true_and, decide_eq_false_iff_not, not_le] at hfail
      simp [tryMatch, splitQuote_append hn, hnm, hws, hws2, h1]
      omega

theorem restOk_headNotDigit {rest : List Char} (hr : restOk rest) :
    headNotDigit rest := by
  rcases hr with h | ⟨r, h⟩ <;> subst h <;> simp [headNotDigit] <;> decide

theorem restOk_notColonStart {rest : List Char} (hr : restOk rest) :
    notColonStart rest := by
  rcases hr with h | ⟨r, h⟩ <;> subst h <;> refine ⟨by decide, by decide⟩

theorem restOk_quote_none {rest : List Char} (hr : restOk rest) :
    tryMatch (quoteChar :: rest) = none := by
  rcases hr with h | ⟨r, h⟩ <;> subst h
  · decide
  · exact tryMatch_none_nonword (by decide) (by decide)

/-- One field of the rendering is transformed exactly as quoteBig describes,
and the scanner then continues with the rest of the text. -/
theorem replace_field_step {f : List Char × Atom} {rest : List Char}
    (hf : goodField f) (hr : restOk rest) :
    replaceBigInt (renderField f ++ rest) =
      renderField (quoteBig f) ++ replaceBigInt rest := by
  obtain ⟨n, a⟩ := f
  obtain ⟨hn, ha⟩ := hf
  cases a with
  | num ds =>
      obtain ⟨hne, hd⟩ := ha
      have hnd : headNotDigit rest := restOk_headNotDigit hr
      have hq_ds : quoteChar ∉ ds := fun hmem => absurd (hd _ hmem) (by decide)
      by_cases htrig : (nameMatches n && decide (16 ≤ ds.length)) = true
      · have hm : nameMatches n = true := by
          simp only [Bool.and_eq_true] at htrig; exact htrig.1
        have hlen : 16 ≤ ds.length := by
          simp only [Bool.and_eq_true, decide_eq_true_eq] at htrig; exact htrig.2
        have t0 : tryMatch (quoteChar :: (n ++ quoteChar :: ':' :: (ds ++ rest))) =
            some (n, ds, rest) := by
          have := tryMatch_trigger hn hm hd hne hlen hnd
          simpa using this
        simp only [renderField, renderAtom, quoteBig, htrig, if_true,
          List.cons_append, List.append_assoc]
        rw [replaceBigInt_of_match t0]
        simp
      · have hfail : (nameMatches n && decide (16 ≤ ds.length)) = false := by
          simpa using htrig
        have t1 : tryMatch (quoteChar :: (n ++ quoteChar :: ':' :: (ds ++ rest))) =
            none := by
          have := tryMatch_none_numval hn hd hne hnd hfail
          simpa using this
        have t3 : tryMatch (quoteChar :: ':' :: (ds ++ rest)) = none :=
          tryMatch_none_nonword (by decide) (by decide)
        have t2 : tryMatch (':' :: (ds ++ rest)) = none :=
          tryMatch_none_of_head (by decide)
        simp only [renderField, renderAtom, quoteBig, hfail,
          List.cons_append, List.append_assoc]
        rw [replaceBigInt_of_nomatch t1, replace_copies hn,
          replaceBigInt_of_nomatch t3, replaceBigInt_of_nomatch t2,
          replace_copies hq_ds]
        simp
  | str s =>
      have hs : quoteChar ∉ s := ha
      have t1 : tryMatch
          (quoteChar :: (n ++ quoteChar :: ':' :: quoteChar :: (s ++ quoteChar :: rest))) =
          none := by
        have := @tryMatch_none_strval n (s ++ quoteChar :: rest) hn
        simpa using this
      have t3 : tryMatch (quoteChar :: ':' :: quoteChar :: (s ++ quoteChar :: rest)) =
          none := tryMatch_none_nonword (by decide) (by decide)
      have t2 : tryMatch (':' :: quoteChar :: (s ++ quoteChar :: rest)) = none :=
        tryMatch_none_of_head (by decide)
      have t4 : tryMatch (quoteChar :: (s ++ quoteChar :: rest)) = none := by
        have := tryMatch_none_span hs (restOk_notColonStart hr)
        simpa using this
      have t5 : tryMatch (quoteChar :: rest) = none := restOk_quote_none hr
      simp only [renderField, renderAtom, quoteBig,
        List.cons_append, List.append_assoc, List.singleton_append,
        List.nil_append]
      rw [replaceBigInt_of_nomatch t1, replace_copies hn,
        replaceBigInt_of_nomatch t3, replaceBigInt_of_nomatch t2,
        replaceBigInt_of_nomatch t4, replace_copies hs,
        replaceBigInt_of_nomatch t5]

theorem replace_inner {l : List (List Char × Atom)}
    (hl : ∀ f ∈ l, goodField f) :
    replaceBigInt (renderInner l ++ ['}']) =
      renderInner (l.map quoteBig) ++ ['}'] := by
  induction l with
  | nil =>
      have t : tryMatch ['}'] = none := by decide
      simp only [renderInner, List.map_nil, List.nil_append]
      rw [replaceBigInt_of_nomatch t, replaceBigInt_nil]
  | cons f fs ih =>
      cases fs with
      | nil =>
          have hf := hl f (by simp)
          have h1 := replace_field_step hf (Or.inl rfl)
          have h2 : replaceBigInt ['}'] = ['}'] := by
            rw [replaceBigInt_of_nomatch (by decide : tryMatch ['}'] = none),
              replaceBigInt_nil]
          simp only [renderInner, List.map_cons, List.map_nil]
          rw [h1, h2]
      | cons g gs =>
          have hf := hl f (by simp)
          have hrest : ∀ x ∈ g :: gs, goodField x := fun x hx => hl x (by simp [hx])
          have hcomma : restOk (',' :: (renderInner (g :: gs) ++ ['}'])) :=
            Or.inr ⟨_, rfl⟩
          have hstep := replace_field_step hf hcomma
          have t2 : tryMatch (',' :: (renderInner (g :: gs) ++ ['}'])) = none :=
            tryMatch_none_of_head (by decide)
          calc replaceBigInt (renderInner (f :: g :: gs) ++ ['}'])
              = replaceBigInt (renderField f ++ (',' :: (renderInner (g :: gs) ++ ['}']))) := by
                simp [renderInner]
            _ = renderField (quoteBig f) ++
                  replaceBigInt (',' :: (renderInner (g :: gs) ++ ['}'])) := hstep
            _ = renderField (quoteBig f) ++
                  (',' :: replaceBigInt (renderInner (g :: gs) ++ ['}'])) := by
                rw [replaceBigInt_of_nomatch t2]
            _ = renderField (quoteBig f) ++
                  (',' :: (renderInner ((g :: gs).map quoteBig) ++ ['}'])) := by
                rw [ih hrest]
            _ = renderInner ((f :: g :: gs).map quoteBig) ++ ['}'] := by
                simp [renderInner]

/-- The full rendered object: replaceBigInt transforms the canonical JSON text
of a flat object into the canonical JSON text of the object with every large
ID field quoted. -/
theorem replace_object {l : List (List Char × Atom)}
    (hl : ∀ f ∈ l, goodField f) :
    replaceBigInt (renderObject l) = renderObject (l.map quoteBig) := by
  have t0 : tryMatch ('{' :: (renderInner l ++ ['}'])) = none :=
    tryMatch_none_of_head (by decide)
  simp only [renderObject, List.cons_append]
  rw [replaceBigInt_of_nomatch t0, replace_inner hl]

theorem lookupField_setField_self {l : List (String × JSValue)} {k : String}
    {v : JSValue} : lookupField (setField l k v) k = some v := by
  induction l with
  | nil => simp [setField, lookupField]
  | cons kv rest ih =>
      obtain ⟨k0, v0⟩ := kv
      by_cases hk : k0 = k
      · simp [setField, lookupField, hk]
      · simp [setField, lookupField, hk, ih]

theorem lookupField_setField_other {l : List (String × JSValue)} {k k' : String}
    {v : JSValue} (h : k' ≠ k) :
    lookupField (setField l k v) k' = lookupField l k' := by
  induction l with
  | nil => simp [setField, lookupField, Ne.symm h]
  | cons kv rest ih =>
      obtain ⟨k0, v0⟩ := kv
      by_cases hk : k0 = k
      · subst hk
        simp [setField, lookupField, Ne.symm h]
      · simp only [setField, if_neg hk, lookupField]
        by_cases hk' : k0 = k'
        · simp [hk']
        · simp [hk', ih]

theorem bindOk {ε α β : Type} (a : α) (f : α → Except ε β) :
    (Except.ok a >>= f) = f a := rfl

theorem transformRequestStep_preserves {acc out : List (String × JSValue)}
    {field f : String} (hne : f ≠ field)
    (h : transformRequestStep acc field = .ok out) :
    lookupField out f = lookupField acc f := by
  unfold transformRequestStep at h
  cases hv : lookupField acc field with
  | none => rw [hv] at h; simp at h; rw [← h]
  | some v =>
      rw [hv] at h
      cases v with
      | jstr s => simp [JSValue.isJStr] at h; rw [← h]
      | jnull => simp [JSValue.isJStr] at h
      | jnum n =>
          simp [JSValue.isJStr] at h
          rw [← h, lookupField_setField_other hne]
      | jbool b =>
          simp [JSValue.isJStr] at h
          rw [← h, lookupField_setField_other hne]
      | jarr xs =>
          simp [JSValue.isJStr] at h
          rw [← h, lookupField_setField_other hne]
      | jobj fs =>
          simp [JSValue.isJStr] at h
          rw [← h, lookupField_setField_other hne]

theorem transformFold_ok {L : List String} :
    ∀ {acc : List (String × JSValue)},
    (∀ g ∈ L, lookupField acc g ≠ some .jnull) →
    ∃ out, L.foldlM transformRequestStep acc = .ok out ∧
      ∀ f, f ∉ L → lookupField out f = lookupField acc f := by
  induction L with
  | nil => intro acc _; exact ⟨acc, rfl, fun f _ => rfl⟩
  | cons a L ih =>
      intro acc hnull
      have hstep : ∃ acc', transformRequestStep acc a = .ok acc' ∧
          ∀ f, f ≠ a → lookupField acc' f = lookupField acc f := by
        unfold transformRequestStep
        cases hv : lookupField acc a with
        | none => exact ⟨acc, rfl, fun f _ => rfl⟩
        | some v =>
            cases v with
            | jnull => exact absurd hv (hnull a (by simp))
            | jstr s => exact ⟨acc, by simp [JSValue.isJStr], fun f _ => rfl⟩
            | jnum n =>
                refine ⟨setField acc a (.jstr (jsCoerceString (.jnum n))),
                  by simp [JSValue.isJStr], fun f hf => ?_⟩
                exact lookupField_setField_other hf
            | jbool b =>
                refine ⟨setField acc a (.jstr (jsCoerceString (.jbool b))),
                  by simp [JSValue.isJStr], fun f hf => ?_⟩
                exact lookupField_setField_other hf
            | jarr xs =>
                refine ⟨setField acc a (.jstr (jsCoerceString (.jarr xs))),
                  by simp [JSValue.isJStr], fun f hf => ?_⟩
                exact lookupField_setField_other hf
            | jobj fs =>
                refine ⟨setField acc a (.jstr (jsCoerceString (.jobj fs))),
                  by simp [JSValue.isJStr], fun f hf => ?_⟩
                exact lookupField_setField_other hf
      obtain ⟨acc', hacc', hpres⟩ := hstep
      have hnull' : ∀ g ∈ L, lookupField acc' g ≠ some .jnull := by
        intro g hg
        by_cases hga : g = a
        · subst hga
          intro hcon
          cases hv : lookupField acc g with
          | none =>
              unfold transformRequestStep at hacc'
              rw [hv] at hacc'
              simp only [Except.ok.injEq] at hacc'
              rw [← hacc', hv] at hcon
              simp at hcon
          | some v =>
              cases v with
              | jnull => exact absurd hv (hnull g (by simp))
              | jstr s =>
                  unfold transformRequestStep at hacc'
                  rw [hv] at hacc'
                  simp only [JSValue.isJStr] at hacc'
                  simp only [Bool.not_true, Bool.false_eq_true, if_false,
                    Except.ok.injEq] at hacc'
                  rw [← hacc', hv] at hcon
                  simp at hcon
              | jnum n =>
                  unfold transformRequestStep at hacc'
                  rw [hv] at hacc'
                  simp [JSValue.isJStr] at hacc'
                  rw [← hacc', lookupField_setField_self] at hcon
                  simp at hcon
              | jbool b =>
                  unfold transformRequestStep at hacc'
                  rw [hv] at hacc'
                  simp [JSValue.isJStr] at hacc'
                  rw [← hacc', lookupField_setField_self] at hcon
                  simp at hcon
              | jarr xs =>
                  unfold transformRequestStep at hacc'
                  rw [hv] at hacc'
                  simp [JSValue.isJStr] at hacc'
                  rw [← hacc', lookupField_setField_self] at hcon
                  simp at hcon
              | jobj fs =>
                  unfold transformRequestStep at hacc'
                  rw [hv] at hacc'
                  simp [JSValue.isJStr] at hacc'
                  rw [← hacc', lookupField_setField_self] at hcon
                  simp at hcon
        · rw [hpres g hga]
          exact hnull g (by simp [hg])
      obtain ⟨out, hout, hpres2⟩ := ih hnull'
      refine ⟨out, ?_, ?_⟩
      · rw [List.foldlM_cons, hacc', bindOk]
        exact hout
      · intro f hf
        have hf1 : f ≠ a := fun h => hf (by simp [h])
        have hf2 : f ∉ L := fun h => hf (by simp [h])
        rw [hpres2 f hf2, hpres f hf1]

theorem idFields_nodup : idFields.Nodup := by decide

theorem jsCoerceString_num {n : Int} : jsCoerceString (.jnum n) = toString n := by
  rw [jsCoerceString]

/-- A listed ID field holding a number is delivered by transformRequest as the
decimal string of that number, provided no listed field holds null (on which
toString would throw). -/
theorem transformRequest_id_field {data : List (String × JSValue)} {f : String}
    {n : Int} (hf : f ∈ idFields)
    (hnull : ∀ g ∈ idFields, lookupField data g ≠ some .jnull)
    (hv : lookupField data f = some (.jnum n)) :
    ∃ out, transformRequestFields data = .ok out ∧
      lookupField out f = some (.jstr (toString n)) := by
  obtain ⟨L1, L2, heq⟩ := List.append_of_mem hf
  have hnd : (L1 ++ f :: L2).Nodup := heq ▸ idFields_nodup
  have hdisj : L1.Disjoint (f :: L2) := List.disjoint_of_nodup_append hnd
  have hfL1 : f ∉ L1 := fun h => hdisj h (by simp)
  have hfL2 : f ∉ L2 := by
    have := (List.nodup_append.mp hnd).2.1
    exact (List.nodup_cons.mp this).1
  have hnull1 : ∀ g ∈ L1, lookupField data g ≠ some .jnull := by
    intro g hg
    exact hnull g (heq ▸ (by simp [hg]))
  obtain ⟨out1, hout1, hpres1⟩ := transformFold_ok (L := L1) hnull1
  have hvf1 : lookupField out1 f = some (.jnum n) := by rw [hpres1 f hfL1, hv]
  have hstep : transformRequestStep out1 f =
      .ok (setField out1 f (.jstr (jsCoerceString (.jnum n)))) := by
    unfold transformRequestStep
    rw [hvf1]
    simp [JSValue.isJStr]
  have hnull2 : ∀ g ∈ L2,
      lookupField (setField out1 f (.jstr (jsCoerceString (.jnum n)))) g ≠
        some .jnull := by
    intro g hg
    have hgf : g ≠ f := fun h => hfL2 (h ▸ hg)
    have hgL1 : g ∉ L1 := fun h => hdisj h (by simp [hg])
    rw [lookupField_setField_other hgf, hpres1 g hgL1]
    exact hnull g (heq ▸ (by simp [hg]))
  obtain ⟨out, hout, hpres2⟩ := transformFold_ok (L := L2) hnull2
  refine ⟨out, ?_, ?_⟩
  · unfold transformRequestFields
    rw [heq, List.foldlM_append, hout1, bindOk, List.foldlM_cons, hstep, bindOk]
    exact hout
  · rw [hpres2 f hfL2, lookupField_setField_self, jsCoerceString_num]

/-- A listed ID field already holding a string passes through transformRequest
unchanged (whenever the transformation completes). -/
theorem transformRequest_string_field {data out : List (String × JSValue)}
    {f : String} {s : String}
    (hok : transformRequestFields data = .ok out)
    (hv : lookupField data f = some (.jstr s)) :
    lookupField out f = some (.jstr s) := by
  have hgen : ∀ (L : List String) (acc out : List (String × JSValue)),
      L.foldlM transformRequestStep acc = .ok out →
      lookupField acc f = some (.jstr s) →
      lookupField out f = some (.jstr s) := by
    intro L
    induction L with
    | nil =>
        intro acc out h hacc
        rw [List.foldlM_nil] at h
        cases h
        exact hacc
    | cons a L ih =>
        intro acc out h hacc
        rw [List.foldlM_cons] at h
        cases hstep : transformRequestStep acc a with
        | error e =>
            rw [hstep] at h
            simp only [show ∀ (e : String) (g : List (String × JSValue) →
              Except String (List (String × JSValue))),
              (Except.error e >>= g) = Except.error e from fun _ _ => rfl] at h
            exact absurd h (by simp)
        | ok acc' =>
            rw [hstep, bindOk] at h
            refine ih acc' out h ?_
            by_cases hfa : f = a
            · subst hfa
              unfold transformRequestStep at hstep
              rw [hacc] at hstep
              simp only [JSValue.isJStr] at hstep
              simp only [Bool.not_true, Bool.false_eq_true, if_false,
                Except.ok.injEq] at hstep
              rw [← hstep]
              exact hacc
            · rw [transformRequestStep_preserves hfa hstep]
              exact hacc
  exact hgen idFields data out hok hv

/-! Claim theorems. -/

/-- C8: extractArray returns an array response unchanged, the value array of
an OData envelope, and a one-element wrapper otherwise; the list operations
(listJobs, listTransformations) return exactly the collection extractArray
yields from the API response, never a wrapper object. -/
theorem c8_extractArray_unwraps (r : JSValue) :
    (∀ xs, r = .jarr xs → extractArray r = xs) ∧
    (∀ fs v, r = .jobj fs → lookupField fs "value" = some (.jarr v) →
      extractArray r = v) ∧
    (r.isJArr = false → isODataResponse r = false → extractArray r = [r]) ∧
    listJobs r = extractArray r ∧ listTransformations r = extractArray r := by
  refine ⟨?_, ?_, ?_, rfl, rfl⟩
  · intro xs h
    subst h
    rfl
  · intro fs v h hv
    subst h
    simp [extractArray, isODataResponse, hv]
  · intro harr hod
    cases r with
    | jarr xs => simp [JSValue.isJArr] at harr
    | jobj fs =>
        simp only [extractArray]
        rw [if_neg (by simp [hod])]
    | jstr s => rfl
    | jnum n => rfl
    | jbool b => rfl
    | jnull => rfl

theorem c8_witness :
    extractArray (.jarr [.jnum 1, .jnum 2]) = [.jnum 1, .jnum 2] ∧
    extractArray (.jobj [("value", .jarr [.jstr "job1"]), ("count", .jnum 1)]) =
      [.jstr "job1"] ∧
    extractArray (.jstr "plain") = [.jstr "plain"] :=
  ⟨(c8_extractArray_unwraps _).1 _ rfl,
   (c8_extractArray_unwraps _).2.1 _ _ rfl rfl,
   (c8_extractArray_unwraps _).2.2.1 rfl rfl⟩

def ApiError.urlHasApiRsc (e : ApiError) : Bool :=
  match e.url with
  | some u => strIncludes u "/api.rsc"
  | none => false

/-- C4 counterexample: a 404 response whose request URL does not contain
/api.rsc is not converted to a ConfigurationError; it is rethrown as the
original error (with workspace context appended), although the claim says
every HTTP 404 response becomes a ConfigurationError. -/
theorem c4_counterexample :
    (callWithConfigCheckErr "default"
        { code := none, status := some 404, url := some "/jobs",
          message := "Request failed with status code 404" }).isConfigurationError
      = false := by decide

/-- C4 (amended): callWithConfigCheck taxonomizes failures: ECONNREFUSED and
ENOTFOUND codes and 401 responses become ConfigurationErrors with the
respective remediation text; a 404 becomes a ConfigurationError only when
the request URL contains /api.rsc; every other error is rethrown with the
workspace context present in its message (appended unless the message is
empty or already carries it); successes pass through and no error is ever
converted into a success. -/
theorem c4_error_taxonomy (ws : String) (e : ApiError) :
    (e.code = some "ECONNREFUSED" →
      callWithConfigCheckErr ws e =
        .configurationError (connRefusedGuidance ++ workspaceContext ws)) ∧
    (e.code = some "ENOTFOUND" →
      callWithConfigCheckErr ws e =
        .configurationError (hostNotFoundGuidance ++ workspaceContext ws)) ∧
    (e.code ≠ some "ECONNREFUSED" → e.code ≠ some "ENOTFOUND" →
      e.status = some 401 →
      callWithConfigCheckErr ws e =
        .configurationError (authFailedGuidance ++ workspaceContext ws)) ∧
    (e.code ≠ some "ECONNREFUSED" → e.code ≠ some "ENOTFOUND" →
      e.status = some 404 → e.urlHasApiRsc = true →
      callWithConfigCheckErr ws e =
        .configurationError (endpointNotFoundGuidance ++ workspaceContext ws)) ∧
    (e.code ≠ some "ECONNREFUSED" → e.code ≠ some "ENOTFOUND" →
      e.status ≠ some 401 → (e.status = some 404 → e.urlHasApiRsc = false) →
      callWithConfigCheckErr ws e =
        .original { e with message :=
          if e.message ≠ "" && !(strIncludes e.message "[workspace:") then
            e.message ++ workspaceContext ws
          else e.message }) ∧
    (callWithConfigCheck (α := Unit) ws (.error e) =
      .error (callWithConfigCheckErr ws e)) ∧
    (∀ u : Unit, callWithConfigCheck (α := Unit) ws (.ok u) = .ok u) := by
  refine ⟨?_, ?_, ?_, ?_, ?_, rfl, fun u => rfl⟩
  · intro h
    simp [callWithConfigCheckErr, h]
  · intro h
    have h1 : e.code ≠ some "ECONNREFUSED" := by rw [h]; simp
    simp [callWithConfigCheckErr, h, h1]
  · intro h1 h2 h3
    simp [callWithConfigCheckErr, h1, h2, h3]
  · intro h1 h2 h3 h4
    simp only [ApiError.urlHasApiRsc] at h4
    simp [callWithConfigCheckErr, h1, h2, h3, h4]
  · intro h1 h2 h3 h4
    simp only [ApiError.urlHasApiRsc] at h4
    unfold callWithConfigCheckErr
    rw [if_neg h1, if_neg h2, if_neg h3, if_neg ?_]
    by_cases h5 : e.status = some 404
    · simp [h4 h5]
    · simp [h5]

theorem c4_witness :
    callWithConfigCheckErr "default"
        { code := some "ECONNREFUSED", status := none, url := none,
          message := "connect ECONNREFUSED" } =
      .configurationError (connRefusedGuidance ++ workspaceContext "default") ∧
    callWithConfigCheckErr "ws1"
        { code := none, status := some 401, url := some "/api.rsc/jobs",
          message := "unauthorized" } =
      .configurationError (authFailedGuidance ++ workspaceContext "ws1") ∧
    callWithConfigCheckErr "ws1"
        { code := none, status := some 500, url := none, message := "boom" } =
      .original { code := none, status := some 500, url := none,
                  message := "boom" ++ workspaceContext "ws1" } :=
  ⟨(c4_error_taxonomy "default" _).1 rfl,
   (c4_error_taxonomy "ws1" _).2.2.1 (by simp) (by simp) rfl,
   by
    have h := (c4_error_taxonomy "ws1"
        { code := none, status := some 500, url := none, message := "boom" }).2.2.2.2.1
      (by simp) (by simp) (by simp) (by intro hh; simp at hh)
    rw [h]
    rfl⟩

def sampleConfig : CDataConfig :=
  { baseUrl := "http://localhost:8181/api.rsc", authToken := none,
    username := none, password := none }

/-- C2 counterexample: with no credentials configured and a prompt handler
that returns credentials, a 401 failure leads makeRequest to issue a second
(retry) HTTP request, contradicting the claim that exactly one outbound
request is issued under any condition. -/
theorem c2_counterexample :
    (makeRequestTrace sampleConfig
        (.handlerReturns (some "token12345") none none)
        (.failure (some 401))).requestCount = 2 := by decide

/-- C2 (amended): makeRequest issues at most two outbound HTTP requests, and
exactly two precisely when the first fails with status 401, no credentials
are configured, and the installed credential prompt handler returns
credentials; with no handler, or with the throwing handler the MCP server
installs, exactly one request is issued. -/
theorem c2_request_count (c : CDataConfig) (prompt : PromptBehavior)
    (first : HttpOutcome) :
    (makeRequestTrace c prompt first).requestCount ≤ 2 ∧
    ((makeRequestTrace c prompt first).requestCount = 2 ↔
      (first = .failure (some 401) ∧ hasCredentials c = false ∧
        ∃ tok user pass, prompt = .handlerReturns tok user pass)) ∧
    ((prompt = .handlerAbsent ∨ prompt = .handlerThrows) →
      (makeRequestTrace c prompt first).requestCount = 1) := by
  cases first with
  | success =>
      refine ⟨by simp [makeRequestTrace], ?_, fun _ => rfl⟩
      simp [makeRequestTrace]
  | failure st =>
      cases prompt with
      | handlerAbsent =>
          refine ⟨by simp [makeRequestTrace], ?_, fun _ => rfl⟩
          simp [makeRequestTrace]
      | handlerThrows =>
          refine ⟨by simp [makeRequestTrace], ?_, fun _ => rfl⟩
          simp [makeRequestTrace]
      | handlerReturns tok user pass =>
          by_cases h401 : st = some 401
          · subst h401
            cases hcred : hasCredentials c with
            | false =>
                have hc : makeRequestTrace c (.handlerReturns tok user pass)
                    (.failure (some 401)) =
                    ⟨2, applyPromptCredentials c tok user pass⟩ := by
                  simp [makeRequestTrace, hcred]
                rw [hc]
                refine ⟨by simp, ?_, ?_⟩
                · constructor
                  · intro _
                    exact ⟨rfl, rfl, tok, user, pass, rfl⟩
                  · intro _
                    rfl
                · intro hor
                  rcases hor with h | h <;> simp at h
            | true =>
                have hc : makeRequestTrace c (.handlerReturns tok user pass)
                    (.failure (some 401)) = ⟨1, c⟩ := by
                  simp [makeRequestTrace, hcred]
                rw [hc]
                refine ⟨by simp, ?_, ?_⟩
                · constructor
                  · intro h2
                    simp at h2
                  · rintro ⟨_, h2, _⟩
                    simp at h2
                · intro hor
                  rcases hor with h | h <;> simp at h
          · have hc : makeRequestTrace c (.handlerReturns tok user pass)
                (.failure st) = ⟨1, c⟩ := by
              simp [makeRequestTrace, h401]
            rw [hc]
            refine ⟨by simp, ?_, ?_⟩
            · constructor
              · intro h2
                simp at h2
              · rintro ⟨h1, _, _⟩
                injection h1 with h1
                exact absurd h1 h401
            · intro hor
              rcases hor with h | h <;> simp at h

theorem c2_witness :
    (makeRequestTrace sampleConfig .handlerThrows (.failure (some 401))).requestCount
      = 1 :=
  (c2_request_count sampleConfig .handlerThrows (.failure (some 401))).2.2 (Or.inr rfl)

theorem updateConfig_cases (isValidUrl : String → Bool)
    (testOutcome : Option TestFailure) (hasCb : Bool) (cfg : CDataConfig)
    (p : ConfigUpdateParams) :
    (∃ m, updateConfig isValidUrl testOutcome hasCb cfg p = ⟨cfg, false, false, m⟩) ∨
    ((∃ m, updateConfig isValidUrl testOutcome hasCb cfg p =
        ⟨applyConfigParams cfg p, hasCb, true, m⟩) ∧ testOutcome = none) := by
  unfold updateConfig
  split_ifs
  · exact Or.inl ⟨_, rfl⟩
  · exact Or.inl ⟨_, rfl⟩
  · exact Or.inl ⟨_, rfl⟩
  · cases hvc : validateConfig (applyConfigParams cfg p) with
    | mk valid msg =>
        cases valid
        · exact Or.inl ⟨_, rfl⟩
        · cases testOutcome with
          | none => exact Or.inr ⟨⟨_, rfl⟩, rfl⟩
          | some f => exact Or.inl ⟨_, rfl⟩

/-- C9: updateConfig is atomic: on any failure (malformed URL, short token or
password, invalid merged configuration, failing test request) the stored
configuration is unchanged and the callback is not invoked; the
configuration is replaced and the callback fired only when the test request
succeeded. -/
theorem c9_updateConfig_atomic (isValidUrl : String → Bool)
    (testOutcome : Option TestFailure) (hasCb : Bool) (cfg : CDataConfig)
    (p : ConfigUpdateParams) :
    ((updateConfig isValidUrl testOutcome hasCb cfg p).success = false →
      (updateConfig isValidUrl testOutcome hasCb cfg p).stored = cfg ∧
      (updateConfig isValidUrl testOutcome hasCb cfg p).callbackFired = false) ∧
    ((updateConfig isValidUrl testOutcome hasCb cfg p).success = true →
      testOutcome = none ∧
      (updateConfig isValidUrl testOutcome hasCb cfg p).stored =
        applyConfigParams cfg p) ∧
    ((updateConfig isValidUrl testOutcome hasCb cfg p).callbackFired = true →
      (updateConfig isValidUrl testOutcome hasCb cfg p).success = true) := by
  rcases updateConfig_cases isValidUrl testOutcome hasCb cfg p with
    ⟨m, hm⟩ | ⟨⟨m, hm⟩, ht⟩
  · rw [hm]
    exact ⟨fun _ => ⟨rfl, rfl⟩,
      fun hs => absurd hs (by simp),
      fun hc => absurd hc (by simp)⟩
  · rw [hm]
    subst ht
    exact ⟨fun hs => absurd hs (by simp), fun _ => ⟨rfl, rfl⟩, fun _ => rfl⟩

theorem c9_witness :
    (updateConfig (fun _ => true) (some ⟨some 401, none, "auth failed"⟩) true
        sampleConfig ⟨none, some "token12345", none, none, none⟩).stored =
      sampleConfig ∧
    (updateConfig (fun _ => true) (some ⟨some 401, none, "auth failed"⟩) true
        sampleConfig ⟨none, some "token12345", none, none, none⟩).callbackFired =
      false :=
  (c9_updateConfig_atomic (fun _ => true) (some ⟨some 401, none, "auth failed"⟩)
    true sampleConfig ⟨none, some "token12345", none, none, none⟩).1 (by decide)

def bothAuthConfig : CDataConfig :=
  { baseUrl := "http://localhost:8181/api.rsc", authToken := some "token12345",
    username := some "admin", password := some "password123" }

/-- C10 counterexample: starting from a configuration that holds both an auth
token and a username/password pair, a completed (successful) updateConfig
call that touches no authentication parameter leaves both credential modes
in place, so authentication-mode exclusivity does not hold after every
completed updateConfig. -/
theorem c10_counterexample :
    (updateConfig (fun _ => true) none true bothAuthConfig
        ⟨none, none, none, none, none⟩).success = true ∧
    exclusiveAuth (updateConfig (fun _ => true) none true bothAuthConfig
        ⟨none, none, none, none, none⟩).stored = false := by
  constructor <;> decide

theorem applyConfigParams_exclusive {cfg : CDataConfig} {p : ConfigUpdateParams}
    (h : exclusiveAuth cfg = true) :
    exclusiveAuth (applyConfigParams cfg p) = true := by
  unfold applyConfigParams
  split_ifs with h1 h2 h3
  · simp [exclusiveAuth, otruthy]
  · simp [exclusiveAuth, otruthy]
  · simp [exclusiveAuth, otruthy]
  · simpa [exclusiveAuth] using h

theorem applyConfigParams_exclusive_of_touched {cfg : CDataConfig}
    {p : ConfigUpdateParams}
    (h : p.authToken.isSome ∨ p.username.isSome ∨ p.password.isSome ∨
      p.clearAuth = some true) :
    exclusiveAuth (applyConfigParams cfg p) = true := by
  unfold applyConfigParams
  split_ifs with h1 h2 h3
  · simp [exclusiveAuth, otruthy]
  · simp [exclusiveAuth, otruthy]
  · simp [exclusiveAuth, otruthy]
  · rcases h with h | h | h | h
    · exact absurd h h2
    · exact absurd (by simp [h]) h3
    · exact absurd (by simp [h]) h3
    · exact absurd h h1

/-- C10 (amended): updateConfig preserves authentication-mode exclusivity and
establishes it whenever any authentication parameter (authToken, username,
password, clearAuth) is part of the update; the 401 credential-prompt update
always leaves an exclusive configuration (it only runs when no credentials
are configured); and buildHeaders attaches at most one authentication
header: the token header when the token is truthy, the Basic header when
username and password are truthy, none otherwise. -/
theorem c10_auth_exclusivity (isValidUrl : String → Bool)
    (testOutcome : Option TestFailure) (hasCb : Bool) (cfg : CDataConfig)
    (p : ConfigUpdateParams) (c : CDataConfig) (tok user pass : Option String) :
    (exclusiveAuth cfg = true →
      exclusiveAuth (updateConfig isValidUrl testOutcome hasCb cfg p).stored = true) ∧
    ((p.authToken.isSome ∨ p.username.isSome ∨ p.password.isSome ∨
        p.clearAuth = some true) →
      (updateConfig isValidUrl testOutcome hasCb cfg p).success = true →
      exclusiveAuth (updateConfig isValidUrl testOutcome hasCb cfg p).stored = true) ∧
    (hasCredentials c = false →
      exclusiveAuth (applyPromptCredentials c tok user pass) = true) ∧
    (otruthy c.authToken = true →
      buildAuthHeader c = some (.token (c.authToken.getD ""))) ∧
    (otruthy c.authToken = false →
      (otruthy c.username && otruthy c.password) = true →
      buildAuthHeader c = some (.basic (c.username.getD "") (c.password.getD ""))) ∧
    (otruthy c.authToken = false →
      (otruthy c.username && otruthy c.password) = false →
      buildAuthHeader c = none) := by
  refine ⟨?_, ?_, ?_, ?_, ?_, ?_⟩
  · intro hx
    rcases updateConfig_cases isValidUrl testOutcome hasCb cfg p with
      ⟨m, hm⟩ | ⟨⟨m, hm⟩, _⟩
    · rw [hm]; exact hx
    · rw [hm]; exact applyConfigParams_exclusive hx
  · intro htouched hs
    rcases updateConfig_cases isValidUrl testOutcome hasCb cfg p with
      ⟨m, hm⟩ | ⟨⟨m, hm⟩, _⟩
    · rw [hm] at hs; simp at hs
    · rw [hm]; exact applyConfigParams_exclusive_of_touched htouched
  · intro hcred
    unfold applyPromptCredentials
    split_ifs with h1 h2
    · simp [exclusiveAuth, otruthy]
    · simp [exclusiveAuth, otruthy]
    · have : otruthy c.authToken = false := by
        simp only [hasCredentials, Bool.or_eq_false_iff] at hcred
        exact hcred.1
      simp [exclusiveAuth, this]
  · intro h
    simp [buildAuthHeader, h]
  · intro h1 h2
    simp [buildAuthHeader, h1, h2]
  · intro h1 h2
    simp [buildAuthHeader, h1, h2]

theorem c10_witness :
    exclusiveAuth (updateConfig (fun _ => true) none true bothAuthConfig
        ⟨none, some "tok1234567890", none, none, none⟩).stored = true ∧
    exclusiveAuth (applyPromptCredentials sampleConfig (some "tok1234567890")
        none none) = true ∧
    buildAuthHeader bothAuthConfig = some (.token "token12345") :=
  ⟨(c10_auth_exclusivity (fun _ => true) none true bothAuthConfig
      ⟨none, some "tok1234567890", none, none, none⟩ bothAuthConfig none none
      none).2.1 (Or.inl rfl) (by decide),
   (c10_auth_exclusivity (fun _ => true) none true bothAuthConfig
      ⟨none, some "tok1234567890", none, none, none⟩ sampleConfig
      (some "tok1234567890") none none).2.2.1 (by decide),
   (c10_auth_exclusivity (fun _ => true) none true bothAuthConfig
      ⟨none, some "tok1234567890", none, none, none⟩ bothAuthConfig none none
      none).2.2.2.1 (by decide)⟩

/-- C3: the workspace override restores the client workspace on every path:
after withWorkspace and after withWorkspaceOverride with a workspaceId the
workspace equals its value before the call, whether the wrapped operation
returned normally or threw; the override itself modifies no field of the
configuration (the final configuration is exactly the one the operation
produced) and passes the operation result through; without a workspaceId the
operation runs untouched. -/
theorem c3_workspace_restored {α : Type} (w : String) (op : ClientOp α)
    (st : ClientState)
    (validateWorkspace : ClientState → ClientState × Option String)
    (hval : ∀ s, (validateWorkspace s).1.workspace = s.workspace) :
    ((withWorkspace w op st).1.workspace = st.workspace ∧
     (withWorkspace w op st).1.config = (op (setWorkspace st w)).1.config ∧
     (withWorkspace w op st).2 = (op (setWorkspace st w)).2) ∧
    (∀ w2, (withWorkspaceOverride validateWorkspace (some w2) op st).1.workspace =
      st.workspace) ∧
    (withWorkspaceOverride validateWorkspace none op st = op st) := by
  refine ⟨⟨rfl, rfl, rfl⟩, ?_, rfl⟩
  intro w2
  unfold withWorkspaceOverride
  have h1 : (validateWorkspace st).1.workspace = st.workspace := hval st
  cases hv : validateWorkspace st with
  | mk st1 errOpt =>
      rw [hv] at h1
      cases errOpt with
      | some e => simpa using h1
      | none => simpa [getWorkspace, setWorkspace] using h1

theorem c3_witness :
    ((withWorkspace "ws2"
        (fun s => (s, (Except.error "boom" : Except String Nat)))
        ⟨sampleConfig, "default"⟩).1.workspace = "default" ∧
     (withWorkspaceOverride (fun s => (s, none)) (some "ws2")
        (fun s => (s, (Except.ok 7 : Except String Nat)))
        ⟨sampleConfig, "default"⟩).1.workspace = "default") :=
  ⟨((c3_workspace_restored "ws2"
      (fun s => (s, (Except.error "boom" : Except String Nat)))
      ⟨sampleConfig, "default"⟩ (fun s => (s, none)) (fun _ => rfl)).1).1,
   (c3_workspace_restored "ws2"
      (fun s => (s, (Except.ok 7 : Except String Nat)))
      ⟨sampleConfig, "default"⟩ (fun s => (s, none)) (fun _ => rfl)).2.1 "ws2"⟩

theorem mem_pendingSet (l : List PendingEntry) (e : PendingEntry) :
    e ∈ pendingSet l e := by
  unfold pendingSet
  split_ifs with h
  · rw [List.any_eq_true] at h
    obtain ⟨x, hx, hxe⟩ := h
    simp only [decide_eq_true_eq] at hxe
    exact List.mem_map.mpr ⟨x, hx, by simp [hxe]⟩
  · simp

theorem not_mem_pendingIds_delete (l : List PendingEntry) (i : MsgId) :
    i ∉ pendingIds (pendingDelete l i) := by
  unfold pendingIds pendingDelete
  intro h
  rw [List.mem_map] at h
  obtain ⟨x, hx, hxi⟩ := h
  rw [List.mem_filter] at hx
  have h2 := hx.2
  simp only [ne_eq, decide_not, Bool.not_eq_true', decide_eq_false_iff_not] at h2
  exact h2 hxi

/-- C6: handleClientRequest stores a pending entry under the request id with
a timer of the configured timeout, defaulting to 30000 ms; a send of a
response whose id matches a pending entry removes the entry (clearing its
timer) and resolves the waiting HTTP request with exactly that response,
without broadcasting it to the SSE stream clients; the timeout callback
removes the entry and rejects with Request timeout; in both transitions the
entry is gone from the map afterwards, so a pending entry never outlives
both its response and its timeout. -/
theorem c6_request_correlation (configTimeout : Option Nat)
    (st : TransportState) (reqId : MsgId) (msg : JMsg) (i : MsgId) :
    resolvedTimeout none = 30000 ∧
    (⟨reqId, resolvedTimeout configTimeout⟩ : PendingEntry) ∈
      (handleClientRequest configTimeout true st reqId).1.pending ∧
    (st.isStarted = true → msg.id = some i →
      (msg.hasResult || msg.hasError) = true →
      st.pending.any (fun x => x.id = i) = true →
      send st msg = ({ st with pending := pendingDelete st.pending i },
        .resolvedPending msg) ∧
      i ∉ pendingIds (pendingDelete st.pending i)) ∧
    ((timeoutFire st i).2 = "Request timeout" ∧
      i ∉ pendingIds (timeoutFire st i).1.pending) := by
  refine ⟨rfl, ?_, ?_, rfl, ?_⟩
  · simp only [handleClientRequest, if_pos rfl]
    exact mem_pendingSet _ _
  · intro hstart hid hresp hpend
    refine ⟨?_, not_mem_pendingIds_delete _ _⟩
    simp [send, hstart, hid, hresp, hpend]
  · exact not_mem_pendingIds_delete _ _

theorem c6_witness :
    resolvedTimeout none = 30000 ∧
    (⟨MsgId.num 1, 30000⟩ : PendingEntry) ∈
      (handleClientRequest none true ⟨true, [], 0⟩ (MsgId.num 1)).1.pending ∧
    send ⟨true, [⟨MsgId.num 1, 30000⟩], 0⟩
        ⟨some (MsgId.num 1), false, true, false⟩ =
      (⟨true, [], 0⟩, .resolvedPending ⟨some (MsgId.num 1), false, true, false⟩) :=
  ⟨(c6_request_correlation none ⟨true, [], 0⟩ (MsgId.num 1)
      ⟨some (MsgId.num 1), false, true, false⟩ (MsgId.num 1)).1,
   (c6_request_correlation none ⟨true, [], 0⟩ (MsgId.num 1)
      ⟨some (MsgId.num 1), false, true, false⟩ (MsgId.num 1)).2.1,
   ((c6_request_correlation none ⟨true, [⟨MsgId.num 1, 30000⟩], 0⟩ (MsgId.num 1)
      ⟨some (MsgId.num 1), false, true, false⟩ (MsgId.num 1)).2.2.1 rfl rfl rfl
      (by decide)).1⟩

/-- C7: a POST to the message endpoint whose body is not a truthy object or
whose jsonrpc member is not exactly the string 2.0 is answered with HTTP 400
and a JSON-RPC error envelope with code -32600 (Invalid Request) whose id is
the body id when present and null otherwise; a valid body that is not a
request (no method and id pair) is acknowledged with HTTP 204 and no body. -/
theorem c7_invalid_request_envelope (body : JSValue) :
    (∀ m, validateMessageError body = some m →
      postMessage body = .jsonReply 400
        (createErrorResponse (errorIdOf body) (-32600) "Invalid Request" (some m))) ∧
    ((isTruthyObject body = false ∨ hasJsonrpc20 body = false) →
      ∃ m, validateMessageError body = some m) ∧
    (∀ fs v, body = .jobj fs → lookupField fs "id" = some v →
      errorIdOf body = v) ∧
    (getField body "id" = none → errorIdOf body = .jnull) ∧
    (validateMessageError body = none → isRequestBody body = false →
      postMessage body = .noContent) := by
  refine ⟨?_, ?_, ?_, ?_, ?_⟩
  · intro m hm
    simp [postMessage, hm]
  · intro h
    by_cases ht : isTruthyObject body = true
    · have hj : hasJsonrpc20 body = false := by
        rcases h with h | h
        · rw [ht] at h; exact absurd h (by simp)
        · exact h
      exact ⟨"Invalid JSON-RPC version", by simp [validateMessageError, ht, hj]⟩
    · have ht2 : isTruthyObject body = false := by simpa using ht
      exact ⟨"Invalid JSON-RPC message format",
        by simp [validateMessageError, ht2]⟩
  · intro fs v hb hv
    subst hb
    simp [errorIdOf, getField, hv]
  · intro h
    simp [errorIdOf, h]
  · intro h1 h2
    simp [postMessage, h1, h2]

theorem c7_witness :
    postMessage (.jnum 5) = .jsonReply 400
      (createErrorResponse .jnull (-32600) "Invalid Request"
        (some "Invalid JSON-RPC message format")) ∧
    postMessage (.jobj [("jsonrpc", .jstr "1.0"), ("id", .jnum 3)]) =
      .jsonReply 400
        (createErrorResponse (.jnum 3) (-32600) "Invalid Request"
          (some "Invalid JSON-RPC version")) ∧
    postMessage (.jobj [("jsonrpc", .jstr "2.0"), ("id", .jnum 3),
        ("result", .jobj [])]) = .noContent :=
  ⟨(c7_invalid_request_envelope (.jnum 5)).1 _ rfl,
   (c7_invalid_request_envelope _).1 _ rfl,
   (c7_invalid_request_envelope _).2.2.2.2 rfl rfl⟩

theorem isEmpty_false_of_mem {α : Type} {l : List α} {a : α} (h : a ∈ l) :
    l.isEmpty = false := by
  cases l with
  | nil => simp at h
  | cons x xs => rfl

theorem mem_missingFor_of_required {toolName action : String}
    {args : List (String × JSValue)} {pname : String}
    (hmem : pname ∈ requiredFor toolName action)
    (hmiss : isMissingParam args pname = true) :
    pname ∈ missingFor toolName action args := by
  unfold requiredFor at hmem
  unfold missingFor
  cases hl : assocLookup REQUIRED_PARAMETERS toolName with
  | none => rw [hl] at hmem; simp at hmem
  | some tp =>
      rw [hl] at hmem
      have h1 : pname ∈ ((assocLookup tp action).getD []).filter
          (fun p => isMissingParam args p) :=
        List.mem_filter.mpr ⟨hmem, hmiss⟩
      exact List.mem_append_left _ (List.mem_append_left _
        (List.mem_append_left _ (List.mem_append_left _ h1)))

theorem callToolGate_rejects {toolName : String}
    {args : List (String × JSValue)}
    (hscope : (strStartsWith toolName "write_" ||
      strStartsWith toolName "execute_" ||
      toolName = "configure_sync_server") = true)
    (hne : (missingFor toolName (actionOf args) args).isEmpty = false) :
    callToolGate toolName args =
      .rejected (missingFor toolName (actionOf args) args) := by
  unfold callToolGate validateToolParameters
  rw [if_pos hscope]
  unfold validateRequiredParameters
  simp [hne]

theorem charsStartWith_head_ne {l p q : List Char} {a b : Char}
    (hp : charsStartWith l (a :: p) = true) (hab : a ≠ b) :
    charsStartWith l (b :: q) = false := by
  cases l with
  | nil => rfl
  | cons c t =>
      simp only [charsStartWith, Bool.and_eq_true, decide_eq_true_eq] at hp
      simp only [charsStartWith, Bool.and_eq_false_iff, decide_eq_false_iff_not]
      left
      rw [hp.1]
      exact hab

/-- C5: for write_, execute_ and configure_sync_server tools, a required
parameter that is undefined, null or empty, and the special-case checks of
write_tasks create and execute_job/execute_query, make the CallTool handler
reject the call with an error naming the missing parameters before any
service method runs; tools starting with read_ or get_ are never rejected
by this validation. -/
theorem c5_validation_gate (toolName : String)
    (args : List (String × JSValue)) :
    ((strStartsWith toolName "write_" || strStartsWith toolName "execute_" ||
        toolName = "configure_sync_server") = true →
      ∀ pname ∈ requiredFor toolName (actionOf args),
        isMissingParam args pname = true →
        callToolGate toolName args =
          .rejected (missingFor toolName (actionOf args) args) ∧
        pname ∈ missingFor toolName (actionOf args) args) ∧
    (jtruthy (lookupField args "jobName") = false →
      jtruthy (lookupField args "jobId") = false →
      callToolGate "execute_job" args =
        .rejected (missingFor "execute_job" (actionOf args) args) ∧
      "jobName OR jobId" ∈ missingFor "execute_job" (actionOf args) args) ∧
    (actionOf args = "create" →
      jtruthy (lookupField args "query") = false →
      jtruthy (lookupField args "table") = false →
      callToolGate "write_tasks" args =
        .rejected (missingFor "write_tasks" (actionOf args) args) ∧
      "query OR table" ∈ missingFor "write_tasks" (actionOf args) args) ∧
    ((strStartsWith toolName "read_" || strStartsWith toolName "get_") = true →
      callToolGate toolName args = .dispatched) := by
  refine ⟨?_, ?_, ?_, ?_⟩
  · intro hscope pname hmem hmiss
    have h1 := mem_missingFor_of_required hmem hmiss
    exact ⟨callToolGate_rejects hscope (isEmpty_false_of_mem h1), h1⟩
  · intro hn hi
    have hmem : "jobName OR jobId" ∈ missingFor "execute_job" (actionOf args) args := by
      unfold missingFor
      rw [show assocLookup REQUIRED_PARAMETERS "execute_job" =
        some [("execute", [])] from rfl]
      simp only [hn, hi]
      simp
    refine ⟨callToolGate_rejects (by decide) (isEmpty_false_of_mem hmem), hmem⟩
  · intro hact hq ht
    have hmem : "query OR table" ∈ missingFor "write_tasks" (actionOf args) args := by
      unfold missingFor
      rw [show assocLookup REQUIRED_PARAMETERS "write_tasks" =
        some [("create", ["jobName"]), ("update", ["jobName", "taskId"]),
          ("delete", ["jobName", "taskId"])] from rfl]
      simp only [hact, hq, ht]
      simp
    refine ⟨callToolGate_rejects (by decide) (isEmpty_false_of_mem hmem), hmem⟩
  · intro hreads
    have hw : strStartsWith toolName "write_" = false := by
      unfold strStartsWith at *
      rcases Bool.or_eq_true_iff.mp hreads with h | h
      · exact charsStartWith_head_ne h (by decide)
      · exact charsStartWith_head_ne h (by decide)
    have he : strStartsWith toolName "execute_" = false := by
      unfold strStartsWith at *
      rcases Bool.or_eq_true_iff.mp hreads with h | h
      · exact charsStartWith_head_ne h (by decide)
      · exact charsStartWith_head_ne h (by decide)
    have hc : toolName ≠ "configure_sync_server" := by
      intro hh
      rw [hh] at hreads
      exact absurd hreads (by decide)
    unfold callToolGate validateToolParameters
    rw [if_neg (by simp [hw, he, hc])]

theorem c5_witness :
    (callToolGate "write_jobs" [("action", .jstr "create"), ("jobName", .jstr "j1")] =
      .rejected (missingFor "write_jobs" "create"
        [("action", .jstr "create"), ("jobName", .jstr "j1")]) ∧
      "source" ∈ missingFor "write_jobs" "create"
        [("action", .jstr "create"), ("jobName", .jstr "j1")]) ∧
    (callToolGate "execute_job" [] =
      .rejected (missingFor "execute_job" "execute" []) ∧
      "jobName OR jobId" ∈ missingFor "execute_job" "execute" []) ∧
    callToolGate "read_jobs" [] = .dispatched :=
  ⟨(c5_validation_gate "write_jobs"
      [("action", .jstr "create"), ("jobName", .jstr "j1")]).1 (by decide)
      "source" (by decide) (by decide),
   (c5_validation_gate "execute_job" []).2.1 (by decide) (by decide),
   (c5_validation_gate "read_jobs" []).2.2.2 (by decide)⟩

/-- C1: the API client round-trips large numeric ID fields as strings. On the
response side, for any flat JSON object (canonically rendered, names and
string contents quote-free, numbers nonempty digit runs), the bigIntRegex
replacement of parseJSONWithBigInt turns the body into the rendering of the
same object in which every field whose name matches the ID/numeric pattern
and whose value is an unquoted run of 16 or more digits carries exactly that
digit run as a string; so JSON.parse delivers those fields as the exact
decimal digit strings. On the request side, transformRequest serialises any
listed ID field holding a number as its decimal string, and leaves fields
that are already strings unchanged. -/
theorem c1_bigint_roundtrip :
    (∀ (l : List (List Char × Atom)), (∀ f ∈ l, goodField f) →
      replaceBigInt (renderObject l) = renderObject (l.map quoteBig) ∧
      ∀ nm ds, (nm, Atom.num ds) ∈ l → nameMatches nm = true →
        16 ≤ ds.length → (nm, Atom.str ds) ∈ l.map quoteBig) ∧
    (∀ (data : List (String × JSValue)) (f : String) (n : Int),
      f ∈ idFields → (∀ g ∈ idFields, lookupField data g ≠ some .jnull) →
      lookupField data f = some (.jnum n) →
      ∃ out, transformRequestFields data = .ok out ∧
        lookupField out f = some (.jstr (toString n))) ∧
    (∀ (data out : List (String × JSValue)) (f s : String),
      transformRequestFields data = .ok out →
      lookupField data f = some (.jstr s) →
      lookupField out f = some (.jstr s)) := by
  refine ⟨?_, ?_, ?_⟩
  · intro l hl
    refine ⟨replace_object hl, ?_⟩
    intro nm ds hmem hnm hlen
    have : quoteBig (nm, Atom.num ds) = (nm, Atom.str ds) := by
      simp [quoteBig, hnm, hlen]
    exact this ▸ List.mem_map_of_mem quoteBig hmem
  · intro data f n hf hnull hv
    exact transformRequest_id_field hf hnull hv
  · intro data out f s hok hv
    exact transformRequest_string_field hok hv

theorem c1_witness :
    replaceBigInt
        (renderObject [("JobId".toList, Atom.num "1234567890123456".toList),
          ("Status".toList, Atom.str "OK".toList)]) =
      renderObject [("JobId".toList, Atom.str "1234567890123456".toList),
        ("Status".toList, Atom.str "OK".toList)] ∧
    (∃ out,
      transformRequestFields [("JobId", JSValue.jnum 1234567890123456)] =
        .ok out ∧
      lookupField out "JobId" = some (.jstr "1234567890123456")) := by
  constructor
  · have h := (c1_bigint_roundtrip.1
        [("JobId".toList, Atom.num "1234567890123456".toList),
         ("Status".toList, Atom.str "OK".toList)]
        (by
          intro f hf
          simp only [List.mem_cons, List.not_mem_nil, or_false] at hf
          rcases hf with hf | hf <;> subst hf <;>
            exact ⟨by decide, by decide⟩)).1
    rw [h]
    rfl
  · have h := c1_bigint_roundtrip.2.1
      [("JobId", JSValue.jnum 1234567890123456)] "JobId" 1234567890123456
      (by decide)
      (by
        intro g hg
        by_cases hj : ("JobId" : String) = g
        · subst hj
          simp [lookupField]
        · simp [lookupField, hj])
      (by simp [lookupField])
    simpa using h

end CDataSync
